import Mathlib

/-!
# Virtual Music Kit: key mapping, input routing and sequence playback

A shallow embedding of `src/script.js`.  JavaScript strings are Lean strings
(sequences of code points), DOM elements are records holding the attributes
and classes the script reads or writes, and every event listener of the
script is a function on the page state.
-/

namespace VirtualMusicKit

/-! ## String primitives of the host language -/

/-- White space and line terminators stripped by `String.prototype.trim`. -/
def isJsWhitespace (c : Char) : Bool :=
  let n := c.toNat
  n == 0x09 || n == 0x0A || n == 0x0B || n == 0x0C || n == 0x0D || n == 0x20 ||
  n == 0xA0 || n == 0x1680 || (decide (0x2000 ≤ n) && decide (n ≤ 0x200A)) ||
  n == 0x2028 || n == 0x2029 || n == 0x202F || n == 0x205F || n == 0x3000 || n == 0xFEFF

/-- Method `String.prototype.trim`: strip white space at both ends. -/
def trim (s : String) : String :=
  String.mk ((s.data.dropWhile isJsWhitespace).reverse.dropWhile isJsWhitespace).reverse

/-- Upper-case form of one code point under `String.prototype.toUpperCase`.
The ASCII letters and every code point whose upper-case form contains an
ASCII letter are listed; all other code points are left as they are, which
does not affect any test against `[A-Z]`. -/
def upperChar (c : Char) : List Char :=
  let n := c.toNat
  if c.isLower then [c.toUpper]
  else if n == 0xDF then ['S', 'S']
  else if n == 0x131 then ['I']
  else if n == 0x149 then [Char.ofNat 0x2BC, 'N']
  else if n == 0x17F then ['S']
  else if n == 0x1F0 then ['J', Char.ofNat 0x30C]
  else if n == 0x1E96 then ['H', Char.ofNat 0x331]
  else if n == 0x1E97 then ['T', Char.ofNat 0x308]
  else if n == 0x1E98 then ['W', Char.ofNat 0x30A]
  else if n == 0x1E99 then ['Y', Char.ofNat 0x30A]
  else if n == 0x1E9A then ['A', Char.ofNat 0x2BE]
  else if n == 0xFB00 then ['F', 'F']
  else if n == 0xFB01 then ['F', 'I']
  else if n == 0xFB02 then ['F', 'L']
  else if n == 0xFB03 then ['F', 'F', 'I']
  else if n == 0xFB04 then ['F', 'F', 'L']
  else if n == 0xFB05 then ['S', 'T']
  else if n == 0xFB06 then ['S', 'T']
  else [c]

/-- Method `String.prototype.toUpperCase`. -/
def toUpperCase (s : String) : String :=
  String.mk (s.data.flatMap upperChar)

/-- The regular expression `/^[A-Z]$/`: exactly one character, in `A`..`Z`. -/
def isSingleLetter (s : String) : Bool :=
  match s.data with
  | [c] => c.isUpper
  | _ => false

/-- The regular expression `/^Key[A-Z]$/`. -/
def isKeyCode (s : String) : Bool :=
  match s.data with
  | ['K', 'e', 'y', c] => c.isUpper
  | _ => false

/-- Function `normalizeKey(key)`; `none` stands for a value that is not a string. -/
def normalizeKey (key : Option String) : String :=
  match key with
  | none => ""
  | some key =>
    let k := toUpperCase (trim key)
    if isSingleLetter k then k else ""

/-- A keyboard event: its `code` and `key` properties (`none` when the
property is not a string). -/
structure KeyboardEvent where
  code : Option String
  key : Option String
  deriving DecidableEq

/-- Function `getLetterFromEvent(e)`. -/
def getLetterFromEvent (e : KeyboardEvent) : String :=
  match e.code with
  | some code => if isKeyCode code then String.mk (code.data.drop 3) else normalizeKey e.key
  | none => normalizeKey e.key

/-! ## Sound model -/

/-- One entry of `sounds`.  The audio element is not part of the record: each
start of playback is recorded in the page state instead. -/
structure Sound where
  id : String
  file : String
  key : String
  deriving DecidableEq

/-- Constant `SOUND_DEFS`: note id and file of each pad. -/
def SOUND_DEFS : List (String × String) :=
  [("C4", "./assets/sounds/C4vL.wav"), ("D4", "./assets/sounds/D4vH.wav"),
   ("F4", "./assets/sounds/F4vH.wav"), ("A4", "./assets/sounds/A4vH.wav"),
   ("B4", "./assets/sounds/B4vH.wav"), ("C5", "./assets/sounds/C5vH.wav"),
   ("C6", "./assets/sounds/C6vH.wav")]

/-- Constant `DEFAULT_KEYS`. -/
def DEFAULT_KEYS : List String := ["A", "S", "D", "F", "G", "H", "J"]

/-- The initial value of `sounds`: each definition paired with the normalised
default key of the same index (`undefined` when there is none). -/
def initialSounds : List Sound :=
  SOUND_DEFS.enum.map fun (idx, def_) =>
    { id := def_.1, file := def_.2, key := normalizeKey (DEFAULT_KEYS.get? idx) }

/-- Function `getAllowedLetters()`: the letters currently assigned to pads. -/
def getAllowedLetters (sounds : List Sound) : List String :=
  sounds.map Sound.key

/-- Function `getMaxSeqLength()`. -/
def getMaxSeqLength (sounds : List Sound) : Nat :=
  sounds.length * 2

/-- The loop of `normalizeSequence`: `out` is the text built so far, the list
holds the characters of the input still to be read. -/
def normalizeSequenceLoop (allowed : List String) (maxLen : Nat) :
    List Char → String → String
  | [], out => out
  | ch :: rest, out =>
    let k := normalizeKey (some (String.singleton ch))
    if k ≠ "" ∧ allowed.contains k then
      let out1 := out ++ k
      if out1.length ≥ maxLen then out1 else normalizeSequenceLoop allowed maxLen rest out1
    else normalizeSequenceLoop allowed maxLen rest out

/-- Function `normalizeSequence(raw)`. -/
def normalizeSequence (sounds : List Sound) (raw : String) : String :=
  normalizeSequenceLoop (getAllowedLetters sounds) (getMaxSeqLength sounds) raw.data ""

/-- Sequence normalisation as the specification words it: pass every
character through `normalizeKey`, keep the results that are a letter assigned
to some pad, and cut the list to `2 × padCount` letters. -/
def specNormalizeSequence (sounds : List Sound) (raw : String) : String :=
  String.join
    (((raw.data.map fun ch => normalizeKey (some (String.singleton ch))).filter
      fun k => k ≠ "" ∧ k ∈ sounds.map Sound.key).take (2 * sounds.length))

/-! ## Page state -/

/-- A pad element of the board (`.key`): the attributes and classes the
script reads or writes.  After `rebindMouseGuards` these are the clones, which
carry only the guarded pointer listeners. -/
structure KeyEl where
  /-- Attribute `dataset.note`. -/
  note : String
  /-- Attribute `dataset.key`. -/
  key : String
  /-- Text of the `.key__kbd` child -/
  kbd : String
  /-- Class `is-active` -/
  active : Bool
  deriving DecidableEq

/-- Where the asynchronous `playSequenceFromInput` is suspended.  `keyEl` and
`sound` are the values captured by the running `playStep`, `rest` the letters
of the sequence not yet started. -/
inductive Runner where
  | idle
  | awaitPlay (keyEl : Option Nat) (sound : Nat) (rest : List Char)
  | awaitSleep (keyEl : Option Nat) (sound : Nat) (rest : List Char)
  deriving DecidableEq

/-- The mutable state of the page.  Pads are addressed by their index in
`sounds`; the element of pad `i` is `keyEls[i]`. -/
structure State where
  sounds : List Sound
  keyEls : List KeyEl
  /-- Map `mousePressed`, by pad element. -/
  mousePressed : List Bool
  /-- Set `keyPressed`, in insertion order. -/
  keyPressed : List String
  isPlayingSequence : Bool
  /-- Variable `editTarget`: the pad whose sound and element it holds -/
  editTarget : Option Nat
  /-- Class `is-open` of the editor -/
  editorOpen : Bool
  /-- Class `editor--error` of the editor -/
  editorError : Bool
  editorLabel : String
  /-- Property `editorInput.value`. -/
  editorValue : String
  /-- Property `seqInput.value`. -/
  seqValue : String
  /-- Property `seqInput.disabled`. -/
  seqDisabled : Bool
  /-- Property `seqInput.maxLength`, once set. -/
  seqMaxLength : Option Nat
  /-- Property `playBtn.disabled`. -/
  playDisabled : Bool
  /-- Class `is-busy` of the application root -/
  appBusy : Bool
  /-- Property `meta.textContent`. -/
  metaText : String
  /-- Every start of playback so far, by pad, oldest first -/
  played : List Nat
  runner : Runner
  deriving DecidableEq

/-- Function `createKeyEl(sound)`. -/
def createKeyEl (sound : Sound) : KeyEl :=
  { note := sound.id, key := sound.key, kbd := sound.key, active := false }

/-- The page once the script has run to its end. -/
def init : State :=
  { sounds := initialSounds
    keyEls := initialSounds.map createKeyEl
    mousePressed := initialSounds.map fun _ => false
    keyPressed := []
    isPlayingSequence := false
    editTarget := none
    editorOpen := false
    editorError := false
    editorLabel := "Change key for:"
    editorValue := ""
    seqValue := ""
    seqDisabled := false
    seqMaxLength := none
    playDisabled := true
    appBusy := false
    metaText := ""
    played := []
    runner := Runner.idle }

/-- The pad elements after `keyEl.classList.add("is-active")` (`b = true`) or
`remove` (`b = false`) on element `i`. -/
def setActiveEl (els : List KeyEl) (keyEl : Option Nat) (b : Bool) : List KeyEl :=
  match keyEl with
  | none => els
  | some i =>
    match els[i]? with
    | none => els
    | some k => els.set i { k with active := b }

/-- Statement `if (keyEl) keyEl.classList.add("is-active")` for `b = true`, and
`remove` for `b = false`. -/
def setActive (s : State) (keyEl : Option Nat) (b : Bool) : State :=
  { s with keyEls := setActiveEl s.keyEls keyEl b }

/-- Function `playOneShot(sound)`: rewind and start the audio of the pad. -/
def playOneShot (s : State) (sound : Nat) : State :=
  { s with played := s.played ++ [sound] }

/-- Function `getSoundByKey(letter)`: the first pad whose key is `letter`. -/
def getSoundByKey (s : State) (letter : String) : Option Nat :=
  s.sounds.findIdx? fun x => x.key == letter

/-- Function `getKeyElement(letter)`: the first pad element whose `data-key` is
`letter`.  In every reachable state each caller passes a letter `A`..`Z`
(the letter of a key event, or a letter some pad holds), for which the
selector is well formed. -/
def getKeyElement (s : State) (letter : String) : Option Nat :=
  s.keyEls.findIdx? fun k => k.key == letter

/-- Function `handleKeyDown(e)`, the `keydown` listener of the document. -/
def handleKeyDown (s : State) (e : KeyboardEvent) : State :=
  if s.isPlayingSequence then s
  else
    let letter := getLetterFromEvent e
    if letter = "" ∨ letter ∈ s.keyPressed then s
    else
      match getSoundByKey s letter with
      | none => s
      | some sound =>
        let s1 := { s with keyPressed := s.keyPressed ++ [letter] }
        playOneShot (setActive s1 (getKeyElement s1 letter) true) sound

/-- Function `handleKeyUp(e)`, the `keyup` listener of the document. -/
def handleKeyUp (s : State) (e : KeyboardEvent) : State :=
  let letter := getLetterFromEvent e
  if letter = "" then s
  else
    let s1 := { s with keyPressed := s.keyPressed.filter fun l => l ≠ letter }
    setActive s1 (getKeyElement s1 letter) false

/-- Listener `onDown` of pad `i`, as bound by `rebindMouseGuards`. -/
def onDown (s : State) (i : Nat) : State :=
  if s.isPlayingSequence then s
  else if s.mousePressed.getD i false then s
  else playOneShot (setActive { s with mousePressed := s.mousePressed.set i true } (some i) true) i

/-- Listener `onUp` of pad `i` (`mouseup` and `mouseleave`), as bound by
`rebindMouseGuards`. -/
def onUp (s : State) (i : Nat) : State :=
  setActive { s with mousePressed := s.mousePressed.set i false } (some i) false

/-! ## Sequence runner -/

/-- Function `updatePlayUiState()`. -/
def updatePlayUiState (s : State) : State :=
  { s with playDisabled := !decide (s.seqValue.length > 0) }

/-- Function `setUiBusy(isBusy)`. -/
def setUiBusy (s : State) (isBusy : Bool) : State :=
  { s with
    seqDisabled := isBusy
    playDisabled := isBusy || s.seqValue.length == 0
    appBusy := isBusy }

/-- The `finally` block of `playSequenceFromInput`; the asynchronous function
then returns. -/
def finallyBlock (s : State) : State :=
  setUiBusy { s with isPlayingSequence := false, runner := Runner.idle } false

/-- The `for` loop of `playSequenceFromInput` from the letters still to play,
run up to the next suspension.  A letter without a pad makes `playStep` return
at once; for a mapped letter `playStep` activates the element, starts the audio
and suspends on the promise of `audio.play()`.  When no letter is left the
`finally` block runs. -/
def playSequenceLoop (s : State) : List Char → State
  | [] => finallyBlock s
  | letter :: rest =>
    match getSoundByKey s (String.singleton letter) with
    | none => playSequenceLoop s rest
    | some sound =>
      let keyEl := getKeyElement s (String.singleton letter)
      { playOneShot (setActive s keyEl true) sound with
        runner := Runner.awaitPlay keyEl sound rest }

/-- Function `playSequenceFromInput()`, up to its first suspension. -/
def playSequenceFromInput (s : State) : State :=
  let seq := s.seqValue
  if seq = "" ∨ s.isPlayingSequence then s
  else playSequenceLoop (setUiBusy { s with isPlayingSequence := true } true) seq.data

/-- Resumption of `playStep` when the promise of `audio.play()` settles: it
suspends again on `sleep(STEP_MS)`. -/
def playStepPlaySettled (s : State) : State :=
  match s.runner with
  | Runner.awaitPlay keyEl sound rest => { s with runner := Runner.awaitSleep keyEl sound rest }
  | _ => s

/-- Resumption of `playStep` when `sleep(STEP_MS)` elapses: the audio is
paused, the element captured at the start of the step is deactivated, and the
loop goes on with the next letter. -/
def playStepSleepElapsed (s : State) : State :=
  match s.runner with
  | Runner.awaitSleep keyEl _ rest => playSequenceLoop (setActive s keyEl false) rest
  | _ => s

/-- A suspended `playStep` throws (a simulated fault): the exception leaves the
loop through the `finally` block. -/
def playStepThrows (s : State) : State :=
  match s.runner with
  | Runner.idle => s
  | _ => finallyBlock s

/-! ## Mapping editor -/

/-- Function `openEditor(sound, keyEl)` for pad `i`. -/
def openEditor (s : State) (i : Nat) : State :=
  if s.isPlayingSequence then s
  else
    match s.sounds[i]? with
    | none => s
    | some sound =>
      { s with
        editTarget := some i
        editorLabel := "Change key for: " ++ sound.id
        editorError := false
        editorOpen := true
        editorValue := sound.key }

/-- Function `closeEditor()`. -/
def closeEditor (s : State) : State :=
  { s with editTarget := none, editorOpen := false, editorError := false, editorValue := "" }

/-- Function `isDuplicateKey(letter, excludeSound)`: some pad other than
`excludeSound` holds `letter`. -/
def isDuplicateKey (s : State) (letter : String) (excludeSound : Nat) : Bool :=
  s.sounds.enum.any fun (j, x) => j != excludeSound && x.key == letter

/-- Function `pulseEditorError()`. -/
def pulseEditorError (s : State) : State :=
  { s with editorError := true }

/-- Function `refreshMetaMapping()`. -/
def refreshMetaMapping (s : State) : State :=
  { s with
    metaText := "Keys: " ++ " ".intercalate (s.sounds.map Sound.key) ++ " → " ++
      " ".intercalate (s.sounds.map Sound.id) }

/-- Function `refreshSequenceRules()`. -/
def refreshSequenceRules (s : State) : State :=
  { s with seqMaxLength := some (getMaxSeqLength s.sounds) }

/-- The pad elements after `updateKeyVisual(keyEl, newLetter)` on element `i`. -/
def updateKeyVisualEl (els : List KeyEl) (i : Nat) (newLetter : String) : List KeyEl :=
  match els[i]? with
  | none => els
  | some k => els.set i { k with key := newLetter, kbd := newLetter }

/-- Function `updateKeyVisual(keyEl, newLetter)` for the element of pad `i`. -/
def updateKeyVisual (s : State) (i : Nat) (newLetter : String) : State :=
  { s with keyEls := updateKeyVisualEl s.keyEls i newLetter }

/-- The list `sounds` after `sound.key = normalized` on pad `i`. -/
def setKey (sounds : List Sound) (i : Nat) (normalized : String) : List Sound :=
  match sounds[i]? with
  | none => sounds
  | some x => sounds.set i { x with key := normalized }

/-- Assignment `editTarget.sound.key = normalized` for pad `i`. -/
def setSoundKey (s : State) (i : Nat) (normalized : String) : State :=
  { s with sounds := setKey s.sounds i normalized }

/-- Function `tryApplyNewKey()`. -/
def tryApplyNewKey (s : State) : State :=
  match s.editTarget with
  | none => s
  | some target =>
    let normalized := normalizeKey (some s.editorValue)
    if normalized = "" ∨ isDuplicateKey s normalized target then pulseEditorError s
    else
      let s1 := setSoundKey s target normalized
      let s2 := updateKeyVisual s1 target normalized
      let s3 := { s2 with keyPressed := [] }
      closeEditor (refreshSequenceRules (refreshMetaMapping s3))

/-- Function `announceMappingChange(noteId, newKey)`: the status text it
writes.  No listener or function of the script calls it, so the timer it arms
never exists. -/
def announceMappingChange (s : State) (noteId newKey : String) : State :=
  { s with metaText := "Key for " ++ noteId ++ " changed to " ++ newKey ++ "." }

/-- The `keydown` listener of `editorInput`.  The Boolean tells whether the
event then bubbles to the document (the `Enter` branch stops it). -/
def editorKeyDown (s : State) (e : KeyboardEvent) : State × Bool :=
  if e.key = some "Enter" then (tryApplyNewKey s, false)
  else if e.key = some "Escape" then (closeEditor s, true)
  else ({ s with editorError := false }, true)

/-- The `input` listener of `editorInput`, run after the browser has made
`raw` the value of the field. -/
def editorOnInput (s : State) (raw : String) : State :=
  { s with
    editorError := false
    editorValue := String.mk (((toUpperCase raw).data.filter Char.isUpper).take 1) }

/-- The `input` listener of `seqInput`, run after the browser has made `raw`
the value of the field.  The `beforeinput` listener only cancels insertions,
so it restricts the texts `raw` can be and changes no state. -/
def seqOnInput (s : State) (raw : String) : State :=
  updatePlayUiState { s with seqValue := normalizeSequence s.sounds raw }

/-! ## Events -/

/-- The element a `mousedown` lands on. -/
inductive MouseTarget where
  /-- A pad, outside its Edit button. -/
  | padBody (i : Nat)
  /-- The Edit button (`.key__edit`) of a pad. -/
  | padEdit (i : Nat)
  /-- The editor bar or one of its children. -/
  | editor
  /-- Any other element of the page. -/
  | elsewhere
  deriving DecidableEq

/-- The `mousedown` listener of the document. -/
def documentMouseDown (s : State) (target : MouseTarget) : State :=
  if !s.editorOpen then s
  else
    let clickInside := target == MouseTarget.editor
    let clickedEditBtn :=
      match target with
      | MouseTarget.padEdit _ => true
      | _ => false
    if !clickInside && !clickedEditBtn then closeEditor s else s

/-- The element a `keydown` is sent to. -/
inductive KeyTarget where
  | editorInput
  | other
  deriving DecidableEq

/-- The events the page receives: those of the browser, and the resumptions
of the suspended sequence run. -/
inductive Event where
  | keydown (target : KeyTarget) (e : KeyboardEvent)
  | keyup (e : KeyboardEvent)
  | mousedown (target : MouseTarget)
  | mouseup (i : Nat)
  | mouseleave (i : Nat)
  /-- A `click` on the Edit button of pad `i`. -/
  | clickEdit (i : Nat)
  /-- A `click` on the play button. -/
  | clickPlay
  /-- An `input` event of the editor field, whose new content is `raw`. -/
  | editorInput (raw : String)
  /-- An `input` event of the sequence field, whose new content is `raw`. -/
  | seqInput (raw : String)
  | playSettled
  | sleepElapsed
  | stepThrows
  deriving DecidableEq

/-- Delivery of one event: the listeners registered for it, in bubbling
order.  Events aimed at a pad that does not exist, at the disabled play
button or at the disabled sequence field are not delivered. -/
def dispatch (s : State) : Event → State
  | Event.keydown KeyTarget.editorInput e =>
    let r := editorKeyDown s e
    if r.2 then handleKeyDown r.1 e else r.1
  | Event.keydown KeyTarget.other e => handleKeyDown s e
  | Event.keyup e => handleKeyUp s e
  | Event.mousedown (MouseTarget.padBody i) =>
    if i < s.keyEls.length then documentMouseDown (onDown s i) (MouseTarget.padBody i) else s
  | Event.mousedown (MouseTarget.padEdit i) =>
    if i < s.keyEls.length then documentMouseDown (onDown s i) (MouseTarget.padEdit i) else s
  | Event.mousedown target => documentMouseDown s target
  | Event.mouseup i => if i < s.keyEls.length then onUp s i else s
  | Event.mouseleave i => if i < s.keyEls.length then onUp s i else s
  | Event.clickEdit i => openEditor s i
  | Event.clickPlay => if s.playDisabled then s else playSequenceFromInput s
  | Event.editorInput raw => editorOnInput s raw
  | Event.seqInput raw => if s.seqDisabled then s else seqOnInput s raw
  | Event.playSettled => playStepPlaySettled s
  | Event.sleepElapsed => playStepSleepElapsed s
  | Event.stepThrows => playStepThrows s

/-- Delivery of a list of events, first to last. -/
def run (s : State) (events : List Event) : State :=
  events.foldl dispatch s

/-- The states the page can be in: the initial one, and every state an event
leads to from such a state. -/
inductive Reachable : State → Prop where
  | init : Reachable init
  | step {s : State} (e : Event) : Reachable s → Reachable (dispatch s e)

/-- One `A`..`Z` letter, as a predicate. -/
def IsLetter (k : String) : Prop := isSingleLetter k = true

instance (k : String) : Decidable (IsLetter k) := by unfold IsLetter; infer_instance

/-! ## Concrete events and states used in the worked examples -/

/-- The key event of the `Enter` key. -/
def enterKey : KeyboardEvent := { code := some "Enter", key := some "Enter" }

/-- The key event of the letter key `A`. -/
def keyA : KeyboardEvent := { code := some "KeyA", key := some "a" }

/-- The key event of the letter key `Z`. -/
def keyZ : KeyboardEvent := { code := some "KeyZ", key := some "z" }

/-- The editor is opened on the second pad (`S`) and `a` is typed. -/
def editingSecondPad : State :=
  run init [Event.clickEdit 1, Event.editorInput "a"]

/-- The first pad has been remapped from `A` to `Z`. -/
def remappedFirstPad : State :=
  run init [Event.clickEdit 0, Event.editorInput "z", Event.keydown KeyTarget.editorInput enterKey]

/-- A sequence is typed, the editor is opened on the first pad, and the run is
started from the keyboard (a `click` on the focused play button, without a
`mousedown`): the run is suspended in its first step with the editor open. -/
def busyWithEditorOpen : State :=
  run init [Event.seqInput "a", Event.clickEdit 0, Event.clickPlay]

/-- A sequence is typed, the editor is opened on the second pad, `a` is typed
and the confirm is rejected (the first pad holds `A`), which raises the error
sub-state; the run is then started from the keyboard: the page is busy with
the editor open and in error. -/
def busyWithEditorError : State :=
  run init
    [Event.seqInput "a", Event.clickEdit 1, Event.editorInput "a",
     Event.keydown KeyTarget.editorInput enterKey, Event.clickPlay]

/-- The letter key `A` is pressed and held, the editor is opened on the first
pad from the keyboard (a `click` on the focused Edit button), and `z` is
typed. -/
def heldAEditingFirstPad : State :=
  run init [Event.keydown KeyTarget.other keyA, Event.clickEdit 0, Event.editorInput "z"]

/-- The letter key `A` is pressed and held, the editor is opened on the first
pad from the keyboard, `z` is typed and the edit is confirmed with `Enter`:
the first pad is remapped from `A` to `Z` while `A` is still held. -/
def remappedWhileHeld : State :=
  run init
    [Event.keydown KeyTarget.other keyA, Event.clickEdit 0, Event.editorInput "z",
     Event.keydown KeyTarget.editorInput enterKey]

/-- The key event of the `Backspace` key. -/
def backspaceKey : KeyboardEvent := { code := some "Backspace", key := some "Backspace" }

/-- The same remap with the editor opened by the mouse before the key is
pressed: the Edit button of the first pad is clicked (press, release, click),
then `A` is pressed and held in the editor field, the field is emptied, `z` is
typed and the edit is confirmed with `Enter`. -/
def remappedWhileHeldInEditor : State :=
  run init
    [Event.mousedown (MouseTarget.padEdit 0), Event.mouseup 0, Event.clickEdit 0,
     Event.keydown KeyTarget.editorInput keyA, Event.editorInput "a",
     Event.keydown KeyTarget.editorInput backspaceKey, Event.editorInput "",
     Event.keydown KeyTarget.editorInput keyZ, Event.editorInput "z",
     Event.keydown KeyTarget.editorInput enterKey]

/-- The editor is opened on the first pad (`C4`, letter `A`) and `z` is typed. -/
def editingFirstPad : State :=
  run init [Event.clickEdit 0, Event.editorInput "z"]

/-! ## Progress of a sequence run -/

/-- The part of the state a sequence run reads or writes: the busy flag, the
suspended run, the disabled flags of the sequence field and the play button,
the busy class and the sequence text. -/
def runFields (s : State) : Bool × Runner × Bool × Bool × Bool × String :=
  (s.isPlayingSequence, s.runner, s.seqDisabled, s.playDisabled, s.appBusy, s.seqValue)

/-- A run is in progress: the busy flag is set and the sequence controls are
disabled. -/
def Running (s : State) : Prop :=
  s.runner ≠ Runner.idle ∧ s.isPlayingSequence = true ∧ s.seqDisabled = true ∧
  s.playDisabled = true ∧ s.appBusy = true ∧ s.seqValue ≠ ""

/-- The run has settled: the busy flag is clear and the sequence field and the
play button are enabled again. -/
def Settled (s : State) : Prop :=
  s.runner = Runner.idle ∧ s.isPlayingSequence = false ∧ s.seqDisabled = false ∧
  s.playDisabled = false ∧ s.appBusy = false

instance (s : State) : Decidable (Running s) := by unfold Running; infer_instance

instance (s : State) : Decidable (Settled s) := by unfold Settled; infer_instance

/-- The promise or timer the suspended run waits for fires. -/
def resume (s : State) : State :=
  match s.runner with
  | Runner.idle => s
  | Runner.awaitPlay _ _ _ => playStepPlaySettled s
  | Runner.awaitSleep _ _ _ => playStepSleepElapsed s

/-- An upper bound on the resumptions a suspended run still needs. -/
def pending : Runner → Nat
  | Runner.idle => 0
  | Runner.awaitPlay _ _ rest => 2 * rest.length + 2
  | Runner.awaitSleep _ _ rest => 2 * rest.length + 1

/-- A two-letter sequence has been typed and the run started. -/
def runningTwoSteps : State :=
  run init [Event.seqInput "as", Event.clickPlay]

/-- The facts about the key mapping and the editor that hold of every state
the page can be in. -/
structure MapInv (s : State) : Prop where
  ids : s.sounds.map Sound.id = SOUND_DEFS.map Prod.fst
  letters : ∀ k ∈ s.sounds.map Sound.key, IsLetter k
  nodup : (s.sounds.map Sound.key).Nodup
  elKeys : s.keyEls.map KeyEl.key = s.sounds.map Sound.key
  pressedLen : s.mousePressed.length = s.sounds.length
  target : ∀ t, s.editTarget = some t → t < s.sounds.length
  editorOpen : s.editorOpen = s.editTarget.isSome

/-- The facts about the busy flag and the sequence controls that hold of every
state the page can be in. -/
structure BusyInv (s : State) : Prop where
  busy : s.isPlayingSequence = true ↔ s.runner ≠ Runner.idle
  seqDisabled : s.seqDisabled = s.isPlayingSequence
  appBusy : s.appBusy = s.isPlayingSequence
  playDisabled : s.playDisabled = (s.isPlayingSequence || s.seqValue.length == 0)

/-- The facts that hold of every state the page can be in. -/
structure Inv (s : State) : Prop where
  map : MapInv s
  busy : BusyInv s

/-! ## Lemmas on the string primitives -/

theorem isLetter_data {k : String} (h : IsLetter k) : ∃ c, k = String.mk [c] ∧ c.isUpper = true := by
  unfold IsLetter isSingleLetter at h
  rcases k with ⟨d⟩
  match d, h with
  | [c], h => exact ⟨c, rfl, h⟩

theorem isLetter_ne_empty {k : String} (h : IsLetter k) : k ≠ "" := by
  obtain ⟨c, rfl, _⟩ := isLetter_data h
  intro h0
  have h1 := congrArg String.length h0
  simp at h1

theorem isLetter_length {k : String} (h : IsLetter k) : k.length = 1 := by
  obtain ⟨c, rfl, _⟩ := isLetter_data h
  rfl

theorem normalizeKey_cases (v : Option String) :
    normalizeKey v = "" ∨ IsLetter (normalizeKey v) := by
  unfold normalizeKey
  cases v with
  | none => exact Or.inl rfl
  | some key =>
    dsimp only
    split
    · right; assumption
    · left; rfl

theorem isUpper_toNat {c : Char} (h : c.isUpper = true) : 65 ≤ c.toNat ∧ c.toNat ≤ 90 := by
  simp only [Char.isUpper, Bool.and_eq_true, decide_eq_true_eq] at h
  exact ⟨h.1, h.2⟩

theorem isUpper_not_whitespace {c : Char} (h : c.isUpper = true) : isJsWhitespace c = false := by
  have hc := isUpper_toNat h
  unfold isJsWhitespace
  simp only [Bool.or_eq_false_iff, Bool.and_eq_false_iff, beq_eq_false_iff_ne, decide_eq_false_iff_not]
  omega

theorem isUpper_upperChar {c : Char} (h : c.isUpper = true) : upperChar c = [c] := by
  have hc := isUpper_toNat h
  have hl : c.isLower = false := by
    simp only [Char.isLower, Bool.and_eq_false_iff, decide_eq_false_iff_not]
    left
    intro h2
    have : 97 ≤ c.toNat := h2
    omega
  unfold upperChar
  simp only [hl]
  have hn : ∀ m : Nat, 90 < m → (c.toNat == m) = false := by
    intro m hm
    simp only [beq_eq_false_iff_ne]
    omega
  simp [hn]

theorem normalizeKey_of_isLetter {k : String} (h : IsLetter k) : normalizeKey (some k) = k := by
  obtain ⟨c, rfl, hc⟩ := isLetter_data h
  have h1 : trim (String.mk [c]) = String.mk [c] := by
    simp [trim, isUpper_not_whitespace hc, List.dropWhile]
  have h2 : toUpperCase (String.mk [c]) = String.mk [c] := by
    simp [toUpperCase, isUpper_upperChar hc]
  have h3 : isSingleLetter (String.mk [c]) = true := h
  simp only [normalizeKey, h1, h2, h3, if_true]

/-! ## Sequence normalisation -/

theorem join_cons (a : String) (l : List String) : String.join (a :: l) = a ++ String.join l := by
  apply String.ext
  simp

theorem normalizeSequenceLoop_no_letters (maxLen : Nat) (cs : List Char) (out : String) :
    normalizeSequenceLoop [] maxLen cs out = out := by
  induction cs generalizing out with
  | nil => rfl
  | cons ch rest ih => simp [normalizeSequenceLoop, ih]

theorem normalizeSequenceLoop_eq (allowed : List String) (maxLen : Nat) (cs : List Char)
    (out : String) (h : out.length < maxLen) :
    normalizeSequenceLoop allowed maxLen cs out =
      out ++ String.join
        (((cs.map fun ch => normalizeKey (some (String.singleton ch))).filter
          fun k => k ≠ "" ∧ k ∈ allowed).take (maxLen - out.length)) := by
  induction cs generalizing out with
  | nil => simp [normalizeSequenceLoop, String.join]
  | cons ch rest ih =>
    obtain ⟨n, hn⟩ : ∃ n, maxLen - out.length = n + 1 := ⟨maxLen - out.length - 1, by omega⟩
    simp only [normalizeSequenceLoop, List.map_cons]
    by_cases hk : normalizeKey (some (String.singleton ch)) ≠ "" ∧
        normalizeKey (some (String.singleton ch)) ∈ allowed
    · have hlen : (normalizeKey (some (String.singleton ch))).length = 1 := by
        rcases normalizeKey_cases (some (String.singleton ch)) with h0 | h1
        · exact absurd h0 hk.1
        · exact isLetter_length h1
      have hc : (normalizeKey (some (String.singleton ch)) ≠ "" ∧
          allowed.contains (normalizeKey (some (String.singleton ch))) = true) := by
        simpa using hk
      rw [if_pos hc, List.filter_cons_of_pos (by simpa using hk), hn, List.take_succ_cons,
        join_cons, ← String.append_assoc]
      by_cases hfull : (out ++ normalizeKey (some (String.singleton ch))).length ≥ maxLen
      · rw [if_pos hfull]
        have hn0 : n = 0 := by
          rw [String.length_append, hlen] at hfull
          omega
        subst hn0
        simp [String.join]
      · rw [if_neg hfull, ih _ (by omega)]
        rw [String.length_append, hlen]
        have : maxLen - (out.length + 1) = n := by omega
        rw [this]
    · have hc : ¬ (normalizeKey (some (String.singleton ch)) ≠ "" ∧
          allowed.contains (normalizeKey (some (String.singleton ch))) = true) := by
        simpa using hk
      rw [if_neg hc, List.filter_cons_of_neg (by simpa using hk), ih out h]

/-- C4: for every pad list and every raw text, `normalizeSequence` returns the
first `2 × padCount` letters of the text filtered through `normalizeKey` and
the set of assigned letters, in order and with repeats; with the default
letters `"asdfgh123asdfgh123"` becomes `"ASDFGHASDFGH"`. -/
theorem normalizeSequence_eq_filter_take (sounds : List Sound) (raw : String) :
    normalizeSequence sounds raw = specNormalizeSequence sounds raw ∧
    normalizeSequence initialSounds "asdfgh123asdfgh123" = "ASDFGHASDFGH" := by
  refine ⟨?_, by decide⟩
  unfold normalizeSequence specNormalizeSequence getAllowedLetters getMaxSeqLength
  cases sounds with
  | nil => simp [normalizeSequenceLoop_no_letters, String.join]
  | cons x xs =>
    rw [normalizeSequenceLoop_eq _ _ _ _ (by simp [String.length])]
    simp [String.length, Nat.mul_comm]

/-! ## Lemmas on the pad lists -/

theorem setActiveEl_map_key (els : List KeyEl) (k : Option Nat) (b : Bool) :
    (setActiveEl els k b).map KeyEl.key = els.map KeyEl.key := by
  unfold setActiveEl
  cases k with
  | none => rfl
  | some i =>
    dsimp only
    cases h : els[i]? with
    | none => rfl
    | some x =>
      apply List.ext_getElem?
      intro j
      simp only [List.getElem?_map, List.getElem?_set]
      by_cases hij : i = j
      · subst hij
        simp [h]
        exact (List.getElem?_eq_some.mp h).1
      · simp [hij]

theorem setKey_map_key (sounds : List Sound) (i : Nat) (k : String) :
    (setKey sounds i k).map Sound.key = (sounds.map Sound.key).set i k := by
  unfold setKey
  cases h : sounds[i]? with
  | none =>
    rw [List.set_eq_of_length_le]
    simpa using h
  | some x => simp

theorem setKey_map_id (sounds : List Sound) (i : Nat) (k : String) :
    (setKey sounds i k).map Sound.id = sounds.map Sound.id := by
  unfold setKey
  cases h : sounds[i]? with
  | none => rfl
  | some x =>
    apply List.ext_getElem?
    intro j
    simp only [List.getElem?_map, List.getElem?_set]
    by_cases hij : i = j
    · subst hij
      simp [h]
      exact (List.getElem?_eq_some.mp h).1
    · simp [hij]

theorem setKey_length (sounds : List Sound) (i : Nat) (k : String) :
    (setKey sounds i k).length = sounds.length := by
  unfold setKey
  cases h : sounds[i]? <;> simp

theorem updateKeyVisualEl_map_key (els : List KeyEl) (i : Nat) (k : String) :
    (updateKeyVisualEl els i k).map KeyEl.key = (els.map KeyEl.key).set i k := by
  unfold updateKeyVisualEl
  cases h : els[i]? with
  | none =>
    rw [List.set_eq_of_length_le]
    simpa using h
  | some x => simp

theorem isDuplicateKey_iff (s : State) (letter : String) (t : Nat) :
    isDuplicateKey s letter t = true ↔
      ∃ j, j ≠ t ∧ (s.sounds.map Sound.key)[j]? = some letter := by
  unfold isDuplicateKey
  simp only [List.any_eq_true, Bool.and_eq_true, bne_iff_ne, beq_iff_eq, List.getElem?_map]
  constructor
  · rintro ⟨⟨j, x⟩, hm, hj, hx⟩
    refine ⟨j, hj, ?_⟩
    rw [List.mem_enum_iff_getElem?.mp hm]
    exact congrArg some hx
  · rintro ⟨j, hj, hm⟩
    cases hx : s.sounds[j]? with
    | none => rw [hx] at hm; cases hm
    | some x =>
      rw [hx] at hm
      exact ⟨(j, x), List.mem_enum_iff_getElem?.mpr hx, hj, Option.some.inj hm⟩

theorem nodup_set_of_not_elsewhere {keys : List String} {t : Nat} {k : String}
    (hn : keys.Nodup) (hk : ∀ j, j ≠ t → keys[j]? ≠ some k) : (keys.set t k).Nodup := by
  rw [List.nodup_iff_getElem?_ne_getElem?] at hn ⊢
  intro i j hij hj
  rw [List.length_set] at hj
  have hi : i < keys.length := by omega
  rw [List.getElem?_set, List.getElem?_set]
  by_cases hti : t = i
  · subst hti
    have htj : ¬ t = j := by omega
    rw [if_pos rfl, if_pos hi, if_neg htj]
    exact fun h => hk j (Ne.symm htj) h.symm
  · rw [if_neg hti]
    by_cases htj : t = j
    · subst htj
      rw [if_pos rfl, if_pos hj]
      exact hk i (Ne.symm hti)
    · rw [if_neg htj]
      exact hn i j hij hj

/-! ## The invariant -/

theorem mapInv_of_eq {s t : State} (h : MapInv s) (h1 : t.sounds = s.sounds)
    (h2 : t.keyEls.map KeyEl.key = s.keyEls.map KeyEl.key)
    (h3 : t.mousePressed.length = s.mousePressed.length)
    (h4 : t.editTarget = s.editTarget) (h5 : t.editorOpen = s.editorOpen) : MapInv t where
  ids := by rw [h1]; exact h.ids
  letters := by rw [h1]; exact h.letters
  nodup := by rw [h1]; exact h.nodup
  elKeys := by rw [h1, h2]; exact h.elKeys
  pressedLen := by rw [h1, h3]; exact h.pressedLen
  target := by rw [h1, h4]; exact h.target
  editorOpen := by rw [h4, h5]; exact h.editorOpen

theorem busyInv_of_eq {s t : State} (h : BusyInv s)
    (h1 : t.isPlayingSequence = s.isPlayingSequence) (h2 : t.runner = s.runner)
    (h3 : t.seqDisabled = s.seqDisabled) (h4 : t.appBusy = s.appBusy)
    (h5 : t.playDisabled = s.playDisabled) (h6 : t.seqValue = s.seqValue) : BusyInv t where
  busy := by rw [h1, h2]; exact h.busy
  seqDisabled := by rw [h1, h3]; exact h.seqDisabled
  appBusy := by rw [h1, h4]; exact h.appBusy
  playDisabled := by rw [h1, h5, h6]; exact h.playDisabled

theorem inv_init : Inv init := by
  refine ⟨⟨by decide, by decide, by decide, by decide, by decide, ?_, rfl⟩, ⟨?_, rfl, rfl, rfl⟩⟩
  · intro t ht
    cases ht
  · constructor
    · intro h
      cases h
    · intro h
      exact absurd rfl h

theorem mapInv_handleKeyDown {s : State} (h : MapInv s) (e : KeyboardEvent) :
    MapInv (handleKeyDown s e) := by
  unfold handleKeyDown
  split
  · exact h
  · dsimp only
    split
    · exact h
    · split
      · exact h
      · exact mapInv_of_eq h rfl (setActiveEl_map_key _ _ _) rfl rfl rfl

theorem busyInv_handleKeyDown {s : State} (h : BusyInv s) (e : KeyboardEvent) :
    BusyInv (handleKeyDown s e) := by
  unfold handleKeyDown
  split
  · exact h
  · dsimp only
    split
    · exact h
    · split
      · exact h
      · exact busyInv_of_eq h rfl rfl rfl rfl rfl rfl

theorem mapInv_handleKeyUp {s : State} (h : MapInv s) (e : KeyboardEvent) :
    MapInv (handleKeyUp s e) := by
  unfold handleKeyUp
  dsimp only
  split
  · exact h
  · exact mapInv_of_eq h rfl (setActiveEl_map_key _ _ _) rfl rfl rfl

theorem busyInv_handleKeyUp {s : State} (h : BusyInv s) (e : KeyboardEvent) :
    BusyInv (handleKeyUp s e) := by
  unfold handleKeyUp
  dsimp only
  split
  · exact h
  · exact busyInv_of_eq h rfl rfl rfl rfl rfl rfl

theorem mapInv_onDown {s : State} (h : MapInv s) (i : Nat) : MapInv (onDown s i) := by
  unfold onDown
  split
  · exact h
  · split
    · exact h
    · exact mapInv_of_eq h rfl (setActiveEl_map_key s.keyEls (some i) true) (List.length_set _ _ _) rfl rfl

theorem busyInv_onDown {s : State} (h : BusyInv s) (i : Nat) : BusyInv (onDown s i) := by
  unfold onDown
  split
  · exact h
  · split
    · exact h
    · exact busyInv_of_eq h rfl rfl rfl rfl rfl rfl

theorem mapInv_onUp {s : State} (h : MapInv s) (i : Nat) : MapInv (onUp s i) :=
  mapInv_of_eq h rfl (setActiveEl_map_key s.keyEls (some i) false) (List.length_set _ _ _) rfl rfl

theorem busyInv_onUp {s : State} (h : BusyInv s) (i : Nat) : BusyInv (onUp s i) :=
  busyInv_of_eq h rfl rfl rfl rfl rfl rfl

theorem mapInv_closeEditor {s : State} (h : MapInv s) : MapInv (closeEditor s) where
  ids := h.ids
  letters := h.letters
  nodup := h.nodup
  elKeys := h.elKeys
  pressedLen := h.pressedLen
  target := by intro t ht; cases ht
  editorOpen := rfl

theorem busyInv_closeEditor {s : State} (h : BusyInv s) : BusyInv (closeEditor s) :=
  busyInv_of_eq h rfl rfl rfl rfl rfl rfl

theorem mapInv_openEditor {s : State} (h : MapInv s) (i : Nat) : MapInv (openEditor s i) := by
  unfold openEditor
  split
  · exact h
  · split
    · exact h
    · rename_i sound hs
      exact
        { ids := h.ids
          letters := h.letters
          nodup := h.nodup
          elKeys := h.elKeys
          pressedLen := h.pressedLen
          target := by
            intro t ht
            cases ht
            exact (List.getElem?_eq_some.mp hs).1
          editorOpen := rfl }

theorem busyInv_openEditor {s : State} (h : BusyInv s) (i : Nat) : BusyInv (openEditor s i) := by
  unfold openEditor
  split
  · exact h
  · split
    · exact h
    · exact busyInv_of_eq h rfl rfl rfl rfl rfl rfl

theorem mapInv_documentMouseDown {s : State} (h : MapInv s) (t : MouseTarget) :
    MapInv (documentMouseDown s t) := by
  unfold documentMouseDown
  split
  · exact h
  · dsimp only
    split
    · exact mapInv_closeEditor h
    · exact h

theorem busyInv_documentMouseDown {s : State} (h : BusyInv s) (t : MouseTarget) :
    BusyInv (documentMouseDown s t) := by
  unfold documentMouseDown
  split
  · exact h
  · dsimp only
    split
    · exact busyInv_closeEditor h
    · exact h

theorem mapInv_tryApplyNewKey {s : State} (h : MapInv s) : MapInv (tryApplyNewKey s) := by
  unfold tryApplyNewKey
  split
  · exact h
  · rename_i target ht
    dsimp only
    split
    · exact mapInv_of_eq h rfl rfl rfl rfl rfl
    · rename_i hok
      have hne : normalizeKey (some s.editorValue) ≠ "" := fun h0 => hok (Or.inl h0)
      have hlet : IsLetter (normalizeKey (some s.editorValue)) := by
        rcases normalizeKey_cases (some s.editorValue) with h0 | h1
        · exact absurd h0 hne
        · exact h1
      have hdup : ∀ j, j ≠ target →
          (s.sounds.map Sound.key)[j]? ≠ some (normalizeKey (some s.editorValue)) := by
        intro j hj hj2
        exact hok (Or.inr ((isDuplicateKey_iff s _ target).mpr ⟨j, hj, hj2⟩))
      exact
        { ids := by
            show (setKey s.sounds target _).map Sound.id = _
            rw [setKey_map_id]
            exact h.ids
          letters := by
            show ∀ k ∈ (setKey s.sounds target _).map Sound.key, IsLetter k
            rw [setKey_map_key]
            intro k hk
            rcases List.mem_or_eq_of_mem_set hk with hk1 | hk1
            · exact h.letters k hk1
            · rw [hk1]
              exact hlet
          nodup := by
            show ((setKey s.sounds target _).map Sound.key).Nodup
            rw [setKey_map_key]
            exact nodup_set_of_not_elsewhere h.nodup hdup
          elKeys := by
            show (updateKeyVisualEl s.keyEls target _).map KeyEl.key =
              (setKey s.sounds target _).map Sound.key
            rw [updateKeyVisualEl_map_key, setKey_map_key, h.elKeys]
          pressedLen := by
            show s.mousePressed.length = (setKey s.sounds target _).length
            rw [setKey_length]
            exact h.pressedLen
          target := by
            intro t0 ht0
            cases ht0
          editorOpen := rfl }

theorem busyInv_tryApplyNewKey {s : State} (h : BusyInv s) : BusyInv (tryApplyNewKey s) := by
  unfold tryApplyNewKey
  split
  · exact h
  · dsimp only
    split
    · exact busyInv_of_eq h rfl rfl rfl rfl rfl rfl
    · exact busyInv_of_eq h rfl rfl rfl rfl rfl rfl

theorem mapInv_playSequenceLoop {s : State} (h : MapInv s) (letters : List Char) :
    MapInv (playSequenceLoop s letters) := by
  induction letters with
  | nil => exact mapInv_of_eq h rfl rfl rfl rfl rfl
  | cons letter rest ih =>
    unfold playSequenceLoop
    split
    · exact ih
    · exact mapInv_of_eq h rfl (setActiveEl_map_key _ _ _) rfl rfl rfl

theorem busyInv_finallyBlock (s : State) : BusyInv (finallyBlock s) where
  busy := by
    constructor
    · intro h
      cases h
    · intro h
      exact absurd rfl h
  seqDisabled := rfl
  appBusy := rfl
  playDisabled := rfl

theorem busyInv_playSequenceLoop {s : State} (h1 : s.isPlayingSequence = true)
    (h2 : s.seqDisabled = true) (h3 : s.appBusy = true) (h4 : s.playDisabled = true)
    (letters : List Char) : BusyInv (playSequenceLoop s letters) := by
  induction letters with
  | nil => exact busyInv_finallyBlock s
  | cons letter rest ih =>
    unfold playSequenceLoop
    split
    · exact ih
    · exact
        { busy := by
            constructor
            · intro _ h
              cases h
            · intro _
              exact h1
          seqDisabled := by
            show s.seqDisabled = s.isPlayingSequence
            rw [h1, h2]
          appBusy := by
            show s.appBusy = s.isPlayingSequence
            rw [h1, h3]
          playDisabled := by
            show s.playDisabled = (s.isPlayingSequence || s.seqValue.length == 0)
            rw [h1, h4]
            rfl }

theorem mapInv_playSequenceFromInput {s : State} (h : MapInv s) :
    MapInv (playSequenceFromInput s) := by
  unfold playSequenceFromInput
  dsimp only
  split
  · exact h
  · exact mapInv_playSequenceLoop
      (mapInv_of_eq (t := setUiBusy { s with isPlayingSequence := true } true) h
        rfl rfl rfl rfl rfl) _

theorem busyInv_playSequenceFromInput {s : State} (h : BusyInv s) :
    BusyInv (playSequenceFromInput s) := by
  unfold playSequenceFromInput
  dsimp only
  split
  · exact h
  · exact busyInv_playSequenceLoop rfl rfl rfl rfl _

theorem mapInv_playStepSleepElapsed {s : State} (h : MapInv s) :
    MapInv (playStepSleepElapsed s) := by
  unfold playStepSleepElapsed
  split
  · rename_i keyEl sound rest hr
    exact mapInv_playSequenceLoop
      (mapInv_of_eq (t := setActive s keyEl false) h rfl (setActiveEl_map_key _ _ _)
        rfl rfl rfl) _
  · exact h

theorem busyInv_playStepSleepElapsed {s : State} (h : BusyInv s) :
    BusyInv (playStepSleepElapsed s) := by
  unfold playStepSleepElapsed
  split
  · rename_i keyEl sound rest hr
    have hb : s.isPlayingSequence = true := h.busy.mpr (by rw [hr]; intro h0; cases h0)
    have h2 : s.seqDisabled = true := by rw [h.seqDisabled, hb]
    have h3 : s.appBusy = true := by rw [h.appBusy, hb]
    have h4 : s.playDisabled = true := by rw [h.playDisabled, hb]; rfl
    exact busyInv_playSequenceLoop (s := setActive s keyEl false) hb h2 h3 h4 _
  · exact h

theorem busyInv_playStepPlaySettled {s : State} (h : BusyInv s) :
    BusyInv (playStepPlaySettled s) := by
  unfold playStepPlaySettled
  split
  · rename_i keyEl sound rest hr
    have hb : s.isPlayingSequence = true := h.busy.mpr (by rw [hr]; intro h0; cases h0)
    exact
      { busy := by
          constructor
          · intro _ h0
            cases h0
          · intro _
            exact hb
        seqDisabled := h.seqDisabled
        appBusy := h.appBusy
        playDisabled := h.playDisabled }
  · exact h

theorem mapInv_playStepPlaySettled {s : State} (h : MapInv s) :
    MapInv (playStepPlaySettled s) := by
  unfold playStepPlaySettled
  split
  · exact mapInv_of_eq h rfl rfl rfl rfl rfl
  · exact h

theorem mapInv_playStepThrows {s : State} (h : MapInv s) : MapInv (playStepThrows s) := by
  unfold playStepThrows
  split
  · exact h
  · exact mapInv_of_eq h rfl rfl rfl rfl rfl

theorem busyInv_playStepThrows {s : State} (h : BusyInv s) : BusyInv (playStepThrows s) := by
  unfold playStepThrows
  split
  · exact h
  · exact busyInv_finallyBlock s

theorem busyInv_seqOnInput {s : State} (h : BusyInv s) (hd : s.seqDisabled = false)
    (raw : String) : BusyInv (seqOnInput s raw) := by
  have hb : s.isPlayingSequence = false := by rw [← h.seqDisabled, hd]
  exact
    { busy := h.busy
      seqDisabled := h.seqDisabled
      appBusy := h.appBusy
      playDisabled := by
        show (!decide ((normalizeSequence s.sounds raw).length > 0)) =
          (s.isPlayingSequence || (normalizeSequence s.sounds raw).length == 0)
        rw [hb]
        cases hl : (normalizeSequence s.sounds raw).length <;> simp }

theorem inv_dispatch {s : State} (h : Inv s) (e : Event) : Inv (dispatch s e) := by
  obtain ⟨hm, hb⟩ := h
  cases e with
  | keydown target e =>
    cases target with
    | editorInput =>
      simp only [dispatch, editorKeyDown]
      split_ifs
      · exact ⟨mapInv_handleKeyDown (mapInv_tryApplyNewKey hm) e,
          busyInv_handleKeyDown (busyInv_tryApplyNewKey hb) e⟩
      · exact ⟨mapInv_tryApplyNewKey hm, busyInv_tryApplyNewKey hb⟩
      · exact ⟨mapInv_handleKeyDown (mapInv_closeEditor hm) e,
          busyInv_handleKeyDown (busyInv_closeEditor hb) e⟩
      · exact ⟨mapInv_closeEditor hm, busyInv_closeEditor hb⟩
      · exact ⟨mapInv_handleKeyDown (s := { s with editorError := false })
            ((mapInv_of_eq hm) rfl rfl rfl rfl rfl) e,
          busyInv_handleKeyDown (s := { s with editorError := false })
            ((busyInv_of_eq hb) rfl rfl rfl rfl rfl rfl) e⟩
      · exact ⟨(mapInv_of_eq hm) rfl rfl rfl rfl rfl, (busyInv_of_eq hb) rfl rfl rfl rfl rfl rfl⟩
    | other => exact ⟨mapInv_handleKeyDown hm e, busyInv_handleKeyDown hb e⟩
  | keyup e => exact ⟨mapInv_handleKeyUp hm e, busyInv_handleKeyUp hb e⟩
  | mousedown target =>
    cases target with
    | padBody i =>
      simp only [dispatch]
      split
      · exact ⟨mapInv_documentMouseDown (mapInv_onDown hm i) _,
          busyInv_documentMouseDown (busyInv_onDown hb i) _⟩
      · exact ⟨hm, hb⟩
    | padEdit i =>
      simp only [dispatch]
      split
      · exact ⟨mapInv_documentMouseDown (mapInv_onDown hm i) _,
          busyInv_documentMouseDown (busyInv_onDown hb i) _⟩
      · exact ⟨hm, hb⟩
    | editor => exact ⟨mapInv_documentMouseDown hm _, busyInv_documentMouseDown hb _⟩
    | elsewhere => exact ⟨mapInv_documentMouseDown hm _, busyInv_documentMouseDown hb _⟩
  | mouseup i =>
    simp only [dispatch]
    split
    · exact ⟨mapInv_onUp hm i, busyInv_onUp hb i⟩
    · exact ⟨hm, hb⟩
  | mouseleave i =>
    simp only [dispatch]
    split
    · exact ⟨mapInv_onUp hm i, busyInv_onUp hb i⟩
    · exact ⟨hm, hb⟩
  | clickEdit i => exact ⟨mapInv_openEditor hm i, busyInv_openEditor hb i⟩
  | clickPlay =>
    simp only [dispatch]
    split
    · exact ⟨hm, hb⟩
    · exact ⟨mapInv_playSequenceFromInput hm, busyInv_playSequenceFromInput hb⟩
  | editorInput raw => exact ⟨(mapInv_of_eq hm) rfl rfl rfl rfl rfl, (busyInv_of_eq hb) rfl rfl rfl rfl rfl rfl⟩
  | seqInput raw =>
    simp only [dispatch]
    split
    · exact ⟨hm, hb⟩
    · rename_i hd
      exact ⟨(mapInv_of_eq hm) rfl rfl rfl rfl rfl, busyInv_seqOnInput hb (by simpa using hd) raw⟩
  | playSettled => exact ⟨mapInv_playStepPlaySettled hm, busyInv_playStepPlaySettled hb⟩
  | sleepElapsed => exact ⟨mapInv_playStepSleepElapsed hm, busyInv_playStepSleepElapsed hb⟩
  | stepThrows => exact ⟨mapInv_playStepThrows hm, busyInv_playStepThrows hb⟩

theorem inv_of_reachable {s : State} (h : Reachable s) : Inv s := by
  induction h with
  | init => exact inv_init
  | step e _ ih => exact inv_dispatch ih e

theorem reachable_run {s : State} (h : Reachable s) (events : List Event) :
    Reachable (run s events) := by
  induction events generalizing s with
  | nil => exact h
  | cons e rest ih => exact ih (Reachable.step e h)

theorem nodup_getElem?_inj {l : List String} (h : l.Nodup) {i j : Nat} {a : String}
    (hi : l[i]? = some a) (hj : l[j]? = some a) : i = j := by
  obtain ⟨hi1, hi2⟩ := List.getElem?_eq_some.mp hi
  obtain ⟨hj1, hj2⟩ := List.getElem?_eq_some.mp hj
  exact (List.Nodup.getElem_inj_iff h).mp (hi2.trans hj2.symm)

/-! ## The claims -/

/-- C1: in every state reachable from the initial pads by any sequence of
events, there are seven pads, the trigger letters of two different pads differ,
and every trigger letter is one letter `A`..`Z`. -/
theorem reachable_letters_unique (s : State) (h : Reachable s) :
    s.sounds.length = 7 ∧
    (∀ (i j : Nat) (x y : Sound), s.sounds[i]? = some x → s.sounds[j]? = some y → i ≠ j →
      x.key ≠ y.key) ∧
    (∀ x ∈ s.sounds, IsLetter x.key) := by
  have hm := (inv_of_reachable h).map
  refine ⟨?_, ?_, ?_⟩
  · have h1 := congrArg List.length hm.ids
    simpa [SOUND_DEFS] using h1
  · intro i j x y hx hy hij hk
    apply hij
    apply nodup_getElem?_inj hm.nodup (a := x.key)
    · simp [hx]
    · simp [hy, hk]
  · intro x hx
    exact hm.letters x.key (List.mem_map_of_mem _ hx)

/-- Witness of C1: the state after the first pad is remapped from `A` to `Z`. -/
theorem reachable_letters_unique_witness :
    Reachable remappedFirstPad ∧
    remappedFirstPad.sounds.map Sound.key = ["Z", "S", "D", "F", "G", "H", "J"] ∧
    (remappedFirstPad.sounds.length = 7 ∧
      (∀ (i j : Nat) (x y : Sound), remappedFirstPad.sounds[i]? = some x →
        remappedFirstPad.sounds[j]? = some y → i ≠ j → x.key ≠ y.key) ∧
      (∀ x ∈ remappedFirstPad.sounds, IsLetter x.key)) :=
  ⟨reachable_run Reachable.init _, by decide,
    reachable_letters_unique remappedFirstPad (reachable_run Reachable.init _)⟩

theorem normalizeKey_eq_empty_of_not_isLetter {v : Option String}
    (h : ¬ IsLetter (normalizeKey v)) : normalizeKey v = "" := by
  rcases normalizeKey_cases v with h0 | h1
  · exact h0
  · exact absurd h1 h

/-- C2: when an edit session is open on pad `P` and the pending value does not
normalise to one letter `A`..`Z`, or normalises to a letter held by a pad
other than `P`, `tryApplyNewKey` only raises the error sub-state: no trigger
letter changes, the held-keys set and the pending value are unchanged and the
session stays open on `P`. -/
theorem tryApplyNewKey_rejects (s : State) (P : Nat) (hopen : s.editTarget = some P)
    (hbad : ¬ IsLetter (normalizeKey (some s.editorValue)) ∨
      ∃ (j : Nat) (x : Sound), j ≠ P ∧ s.sounds[j]? = some x ∧
        x.key = normalizeKey (some s.editorValue)) :
    tryApplyNewKey s = { s with editorError := true } ∧
    (tryApplyNewKey s).sounds = s.sounds ∧
    (tryApplyNewKey s).keyEls = s.keyEls ∧
    (tryApplyNewKey s).keyPressed = s.keyPressed ∧
    (tryApplyNewKey s).editorValue = s.editorValue ∧
    (tryApplyNewKey s).editTarget = some P ∧
    (tryApplyNewKey s).editorOpen = s.editorOpen ∧
    (tryApplyNewKey s).editorError = true := by
  have hcond : normalizeKey (some s.editorValue) = "" ∨
      isDuplicateKey s (normalizeKey (some s.editorValue)) P = true := by
    rcases hbad with h1 | ⟨j, x, hj, hx, hk⟩
    · exact Or.inl (normalizeKey_eq_empty_of_not_isLetter h1)
    · right
      rw [isDuplicateKey_iff]
      exact ⟨j, hj, by simp [hx, hk]⟩
  have heq : tryApplyNewKey s = { s with editorError := true } := by
    unfold tryApplyNewKey
    split
    · rename_i h0
      rw [hopen] at h0
      cases h0
    · rename_i target h0
      rw [hopen] at h0
      cases h0
      dsimp only
      rw [if_pos hcond]
      rfl
  rw [heq]
  exact ⟨rfl, rfl, rfl, rfl, rfl, hopen, rfl, rfl⟩

/-- Witness of C2: pads `A` and `S`; the editor is opened on the second pad,
`a` is typed and the edit is confirmed: the pad keeps `S` and the error
sub-state is raised. -/
theorem tryApplyNewKey_rejects_witness :
    editingSecondPad.editTarget = some 1 ∧
    editingSecondPad.editorValue = "A" ∧
    (tryApplyNewKey editingSecondPad).sounds.map Sound.key =
      ["A", "S", "D", "F", "G", "H", "J"] ∧
    dispatch editingSecondPad (Event.keydown KeyTarget.editorInput enterKey) =
      tryApplyNewKey editingSecondPad ∧
    (tryApplyNewKey editingSecondPad = { editingSecondPad with editorError := true } ∧
      (tryApplyNewKey editingSecondPad).sounds = editingSecondPad.sounds ∧
      (tryApplyNewKey editingSecondPad).keyEls = editingSecondPad.keyEls ∧
      (tryApplyNewKey editingSecondPad).keyPressed = editingSecondPad.keyPressed ∧
      (tryApplyNewKey editingSecondPad).editorValue = editingSecondPad.editorValue ∧
      (tryApplyNewKey editingSecondPad).editTarget = some 1 ∧
      (tryApplyNewKey editingSecondPad).editorOpen = editingSecondPad.editorOpen ∧
      (tryApplyNewKey editingSecondPad).editorError = true) :=
  ⟨by decide, by decide, by decide, by decide,
    tryApplyNewKey_rejects editingSecondPad 1 (by decide)
      (Or.inr ⟨0, { id := "C4", file := "./assets/sounds/C4vL.wav", key := "A" },
        by decide, by decide, by decide⟩)⟩

theorem set_eq_self_of_getElem? {α : Type} {l : List α} {i : Nat} {a : α}
    (h : l[i]? = some a) : l.set i a = l := by
  apply List.ext_getElem?
  intro j
  rw [List.getElem?_set]
  by_cases hij : i = j
  · subst hij
    rw [if_pos rfl, if_pos (List.getElem?_eq_some.mp h).1, h]
  · rw [if_neg hij]

/-- C3: in every reachable state that is not busy, for every pad `P`,
`openEditor(P)` followed at once by `tryApplyNewKey` succeeds: the pending
value is the letter of `P`, the error sub-state is not raised, the session is
closed, and the pads and their letters are what they were. -/
theorem self_confirm_succeeds (s : State) (h : Reachable s) (hb : s.isPlayingSequence = false)
    (P : Nat) (x : Sound) (hx : s.sounds[P]? = some x) :
    (openEditor s P).editTarget = some P ∧
    (openEditor s P).editorValue = x.key ∧
    (tryApplyNewKey (openEditor s P)).editorError = false ∧
    (tryApplyNewKey (openEditor s P)).editTarget = none ∧
    (tryApplyNewKey (openEditor s P)).editorOpen = false ∧
    (tryApplyNewKey (openEditor s P)).sounds = s.sounds ∧
    (tryApplyNewKey (openEditor s P)).keyEls.map KeyEl.key = s.keyEls.map KeyEl.key := by
  have hm := (inv_of_reachable h).map
  have hlet : IsLetter x.key := hm.letters x.key (List.mem_map_of_mem _ (List.mem_iff_getElem?.mpr ⟨P, hx⟩))
  have hkeyP : (s.sounds.map Sound.key)[P]? = some x.key := by simp [hx]
  have ho : openEditor s P =
      { s with
        editTarget := some P
        editorLabel := "Change key for: " ++ x.id
        editorError := false
        editorOpen := true
        editorValue := x.key } := by
    unfold openEditor
    rw [hb, hx]
    rfl
  have hnd : ¬ (normalizeKey (some x.key) = "" ∨
      isDuplicateKey (openEditor s P) (normalizeKey (some x.key)) P = true) := by
    rw [normalizeKey_of_isLetter hlet]
    rintro (h0 | h1)
    · exact isLetter_ne_empty hlet h0
    · rw [isDuplicateKey_iff, ho] at h1
      obtain ⟨j, hj, hj2⟩ := h1
      exact hj (nodup_getElem?_inj hm.nodup hj2 hkeyP)
  have ht : tryApplyNewKey (openEditor s P) =
      closeEditor (refreshSequenceRules (refreshMetaMapping
        { updateKeyVisual (setSoundKey (openEditor s P) P (normalizeKey (some x.key))) P
            (normalizeKey (some x.key)) with keyPressed := [] })) := by
    conv_lhs => unfold tryApplyNewKey
    have h1 : (openEditor s P).editTarget = some P := by rw [ho]
    have h2 : (openEditor s P).editorValue = x.key := by rw [ho]
    rw [h1]
    dsimp only
    rw [h2, if_neg hnd]
  rw [ht, normalizeKey_of_isLetter hlet]
  refine ⟨by rw [ho], by rw [ho], rfl, rfl, rfl, ?_, ?_⟩
  · show setKey (openEditor s P).sounds P x.key = s.sounds
    rw [ho]
    show setKey s.sounds P x.key = s.sounds
    unfold setKey
    rw [hx]
    exact set_eq_self_of_getElem? hx
  · show (updateKeyVisualEl (openEditor s P).keyEls P x.key).map KeyEl.key = _
    rw [ho, updateKeyVisualEl_map_key]
    show ((s.keyEls.map KeyEl.key).set P x.key) = _
    apply set_eq_self_of_getElem?
    rw [hm.elKeys]
    exact hkeyP

/-- Witness of C3: the third pad of the state in which the first pad was
remapped to `Z`. -/
theorem self_confirm_succeeds_witness :
    Reachable remappedFirstPad ∧ remappedFirstPad.isPlayingSequence = false ∧
    ((openEditor remappedFirstPad 2).editTarget = some 2 ∧
      (openEditor remappedFirstPad 2).editorValue = "D" ∧
      (tryApplyNewKey (openEditor remappedFirstPad 2)).editorError = false ∧
      (tryApplyNewKey (openEditor remappedFirstPad 2)).editTarget = none ∧
      (tryApplyNewKey (openEditor remappedFirstPad 2)).editorOpen = false ∧
      (tryApplyNewKey (openEditor remappedFirstPad 2)).sounds = remappedFirstPad.sounds ∧
      (tryApplyNewKey (openEditor remappedFirstPad 2)).keyEls.map KeyEl.key =
        remappedFirstPad.keyEls.map KeyEl.key) :=
  ⟨reachable_run Reachable.init _, by decide,
    self_confirm_succeeds remappedFirstPad (reachable_run Reachable.init _) (by decide) 2
      { id := "F4", file := "./assets/sounds/F4vH.wav", key := "D" } (by decide)⟩

theorem handleKeyDown_busy (s : State) (hb : s.isPlayingSequence = true) (e : KeyboardEvent) :
    handleKeyDown s e = s := by
  unfold handleKeyDown
  rw [if_pos hb]

theorem onDown_busy (s : State) (hb : s.isPlayingSequence = true) (i : Nat) : onDown s i = s := by
  unfold onDown
  rw [if_pos hb]

theorem openEditor_busy (s : State) (hb : s.isPlayingSequence = true) (i : Nat) :
    openEditor s i = s := by
  unfold openEditor
  rw [if_pos hb]

/-- C5, as stated, fails.  In a reachable busy state with the editor open on
the first pad, a pointer press on the body of the second pad closes the edit
session.  In a reachable busy state with the editor open and in error, a
key-down of the letter `A` in the editor field clears the error sub-state. -/
theorem busy_press_closes_editor :
    Reachable busyWithEditorOpen ∧
    busyWithEditorOpen.isPlayingSequence = true ∧
    busyWithEditorOpen.editTarget = some 0 ∧
    (dispatch busyWithEditorOpen (Event.mousedown (MouseTarget.padBody 1))).editTarget = none ∧
    (dispatch busyWithEditorOpen (Event.mousedown (MouseTarget.padBody 1))).editTarget ≠
      busyWithEditorOpen.editTarget ∧
    Reachable busyWithEditorError ∧
    busyWithEditorError.isPlayingSequence = true ∧
    busyWithEditorError.editTarget = some 1 ∧
    busyWithEditorError.editorError = true ∧
    (dispatch busyWithEditorError (Event.keydown KeyTarget.editorInput keyA)).editorError =
      false ∧
    dispatch busyWithEditorError (Event.keydown KeyTarget.editorInput keyA) ≠
      busyWithEditorError :=
  ⟨reachable_run Reachable.init _, by decide, by decide, by decide, by decide,
    reachable_run Reachable.init _, by decide, by decide, by decide, by decide, by decide⟩

theorem clear_error_eq_self (s : State) (h : s.editorError = false) :
    { s with editorError := false } = s := by
  cases s
  simp only at h
  subst h
  rfl

/-- C5, amended: in every state whose busy flag is set, a key-down of any key
other than `Enter` and `Escape`, a pointer press on any pad and `openEditor`
on any pad start no playback, activate no pad and leave the held-keys set and
the pointer-held map unchanged.  `openEditor`, a key-down delivered outside
the editor field, a press on an Edit button and a press while no editor is
open leave the whole state unchanged.  A key-down delivered to the editor
field changes nothing but the error sub-state, which it clears.  A press on
the body of a pad while the editor is open changes nothing but the editor,
which it closes with `closeEditor`. -/
theorem busy_exclusion (s : State) (hb : s.isPlayingSequence = true) :
    (∀ (target : KeyTarget) (e : KeyboardEvent), e.key ≠ some "Enter" → e.key ≠ some "Escape" →
      (dispatch s (Event.keydown target e)).played = s.played ∧
      (dispatch s (Event.keydown target e)).keyEls = s.keyEls ∧
      (dispatch s (Event.keydown target e)).keyPressed = s.keyPressed ∧
      (dispatch s (Event.keydown target e)).mousePressed = s.mousePressed ∧
      (dispatch s (Event.keydown target e)).editTarget = s.editTarget ∧
      (dispatch s (Event.keydown target e)).editorOpen = s.editorOpen ∧
      (dispatch s (Event.keydown target e)).editorValue = s.editorValue) ∧
    (∀ e : KeyboardEvent, handleKeyDown s e = s) ∧
    (∀ i : Nat, onDown s i = s) ∧
    (∀ i : Nat, dispatch s (Event.mousedown (MouseTarget.padEdit i)) = s) ∧
    (∀ i : Nat,
      (dispatch s (Event.mousedown (MouseTarget.padBody i))).played = s.played ∧
      (dispatch s (Event.mousedown (MouseTarget.padBody i))).keyEls = s.keyEls ∧
      (dispatch s (Event.mousedown (MouseTarget.padBody i))).keyPressed = s.keyPressed ∧
      (dispatch s (Event.mousedown (MouseTarget.padBody i))).mousePressed = s.mousePressed ∧
      (s.editorOpen = false → dispatch s (Event.mousedown (MouseTarget.padBody i)) = s) ∧
      (s.editorOpen = true → i < s.keyEls.length →
        dispatch s (Event.mousedown (MouseTarget.padBody i)) = closeEditor s)) ∧
    (∀ i : Nat, openEditor s i = s ∧ dispatch s (Event.clickEdit i) = s) ∧
    (∀ e : KeyboardEvent, dispatch s (Event.keydown KeyTarget.other e) = s) ∧
    (∀ e : KeyboardEvent, e.key ≠ some "Enter" → e.key ≠ some "Escape" →
      dispatch s (Event.keydown KeyTarget.editorInput e) = { s with editorError := false } ∧
      (s.editorError = false → dispatch s (Event.keydown KeyTarget.editorInput e) = s)) := by
  have hed : ∀ e : KeyboardEvent, e.key ≠ some "Enter" → e.key ≠ some "Escape" →
      dispatch s (Event.keydown KeyTarget.editorInput e) = { s with editorError := false } := by
    intro e h1 h2
    simp only [dispatch, editorKeyDown, if_neg h1, if_neg h2, if_true]
    exact handleKeyDown_busy { s with editorError := false } hb e
  refine ⟨?_, handleKeyDown_busy s hb, onDown_busy s hb, ?_, ?_, ?_, ?_, ?_⟩
  · intro target e h1 h2
    cases target with
    | editorInput =>
      rw [hed e h1 h2]
      exact ⟨rfl, rfl, rfl, rfl, rfl, rfl, rfl⟩
    | other =>
      simp only [dispatch]
      rw [handleKeyDown_busy _ hb]
      exact ⟨rfl, rfl, rfl, rfl, rfl, rfl, rfl⟩
  · intro i
    simp only [dispatch, onDown_busy s hb, documentMouseDown]
    split <;> simp
  · intro i
    simp only [dispatch, onDown_busy s hb, documentMouseDown]
    refine ⟨?_, ?_, ?_, ?_, ?_, ?_⟩
    · split <;> [split; skip] <;> rfl
    · split <;> [split; skip] <;> rfl
    · split <;> [split; skip] <;> rfl
    · split <;> [split; skip] <;> rfl
    · intro ho
      simp [ho]
    · intro ho hi
      simp [ho, hi]
  · intro i
    exact ⟨openEditor_busy s hb i, openEditor_busy s hb i⟩
  · intro e
    exact handleKeyDown_busy s hb e
  · intro e h1 h2
    refine ⟨hed e h1 h2, ?_⟩
    intro herr
    rw [hed e h1 h2]
    exact clear_error_eq_self s herr

/-- Witness of C5: the busy state with the editor open and in error. -/
theorem busy_exclusion_witness :
    busyWithEditorError.isPlayingSequence = true ∧
    (∀ e : KeyboardEvent, handleKeyDown busyWithEditorError e = busyWithEditorError) ∧
    (∀ i : Nat, onDown busyWithEditorError i = busyWithEditorError) ∧
    (∀ i : Nat, dispatch busyWithEditorError (Event.mousedown (MouseTarget.padEdit i)) =
      busyWithEditorError) ∧
    dispatch busyWithEditorError (Event.mousedown (MouseTarget.padBody 0)) =
      closeEditor busyWithEditorError ∧
    dispatch busyWithEditorError (Event.keydown KeyTarget.other keyA) = busyWithEditorError ∧
    dispatch busyWithEditorError (Event.keydown KeyTarget.editorInput keyA) =
      { busyWithEditorError with editorError := false } :=
  ⟨by decide, (busy_exclusion busyWithEditorError (by decide)).2.1,
    (busy_exclusion busyWithEditorError (by decide)).2.2.1,
    (busy_exclusion busyWithEditorError (by decide)).2.2.2.1,
    ((busy_exclusion busyWithEditorError (by decide)).2.2.2.2.1 0).2.2.2.2.2 (by decide)
      (by decide),
    (busy_exclusion busyWithEditorError (by decide)).2.2.2.2.2.2.1 keyA,
    ((busy_exclusion busyWithEditorError (by decide)).2.2.2.2.2.2.2 keyA (by decide)
      (by decide)).1⟩

/-! ## Keyboard playback -/

theorem getSoundByKey_some {s : State} {letter : String} {i : Nat}
    (h : getSoundByKey s letter = some i) : (s.sounds.map Sound.key)[i]? = some letter := by
  unfold getSoundByKey at h
  obtain ⟨hi, hp, _⟩ := List.findIdx?_eq_some_iff_getElem.mp h
  rw [List.getElem?_map, List.getElem?_eq_getElem hi]
  simpa using hp

theorem getSoundByKey_of_getElem? {s : State} (hn : (s.sounds.map Sound.key).Nodup)
    {letter : String} {i : Nat} (h : (s.sounds.map Sound.key)[i]? = some letter) :
    getSoundByKey s letter = some i := by
  unfold getSoundByKey
  rw [List.findIdx?_eq_some_iff_getElem]
  obtain ⟨hi, hk⟩ := List.getElem?_eq_some.mp h
  have hi2 : i < s.sounds.length := by simpa using hi
  refine ⟨hi2, ?_, ?_⟩
  · simpa using hk
  · intro j hji hp
    have hj : (s.sounds.map Sound.key)[j]? = some letter := by
      rw [List.getElem?_map, List.getElem?_eq_getElem (Nat.lt_trans hji hi2)]
      simpa using hp
    have := nodup_getElem?_inj hn hj h
    omega

theorem getSoundByKey_none {s : State} {letter : String} (h : getSoundByKey s letter = none) :
    letter ∉ s.sounds.map Sound.key := by
  unfold getSoundByKey at h
  rw [List.findIdx?_eq_none_iff] at h
  intro hm
  obtain ⟨x, hx, hk⟩ := List.mem_map.mp hm
  have := h x hx
  simp [hk] at this

theorem getKeyElement_eq_getSoundByKey {s : State} (h : MapInv s) (letter : String) :
    getKeyElement s letter = getSoundByKey s letter := by
  have h1 : getKeyElement s letter = (s.keyEls.map KeyEl.key).findIdx? fun k => k == letter := by
    rw [List.findIdx?_map]
    rfl
  have h2 : getSoundByKey s letter = (s.sounds.map Sound.key).findIdx? fun k => k == letter := by
    rw [List.findIdx?_map]
    rfl
  rw [h1, h2, h.elKeys]

theorem getLetterFromEvent_cases (e : KeyboardEvent) :
    getLetterFromEvent e = "" ∨ IsLetter (getLetterFromEvent e) := by
  unfold getLetterFromEvent
  split
  · rename_i code _
    split
    · rename_i hc
      right
      unfold isKeyCode at hc
      split at hc
      · rename_i c hd
        show isSingleLetter (String.mk (code.data.drop 3)) = true
        rw [hd]
        exact hc
      · cases hc
    · exact normalizeKey_cases e.key
  · exact normalizeKey_cases e.key

theorem handleKeyDown_fresh (s : State) (e : KeyboardEvent) (i : Nat)
    (hb : s.isPlayingSequence = false) (hl : getLetterFromEvent e ≠ "")
    (hheld : getLetterFromEvent e ∉ s.keyPressed)
    (hmap : getSoundByKey s (getLetterFromEvent e) = some i) :
    handleKeyDown s e =
      playOneShot
        (setActive { s with keyPressed := s.keyPressed ++ [getLetterFromEvent e] }
          (getKeyElement s (getLetterFromEvent e)) true) i := by
  unfold handleKeyDown
  rw [hb]
  have hc : ¬ (getLetterFromEvent e = "" ∨ getLetterFromEvent e ∈ s.keyPressed) := by
    rintro (h1 | h1)
    · exact hl h1
    · exact hheld h1
  simp only [Bool.false_eq_true, if_false, if_neg hc, hmap]
  rfl

theorem handleKeyDown_unmapped (s : State) (e : KeyboardEvent)
    (hmap : getSoundByKey s (getLetterFromEvent e) = none) : handleKeyDown s e = s := by
  unfold handleKeyDown
  split
  · rfl
  · dsimp only
    split
    · rfl
    · rw [hmap]

theorem handleKeyDown_held (s : State) (e : KeyboardEvent)
    (hheld : getLetterFromEvent e ∈ s.keyPressed) : handleKeyDown s e = s := by
  unfold handleKeyDown
  split
  · rfl
  · dsimp only
    rw [if_pos (Or.inr hheld)]

theorem setActiveEl_getElem? (els : List KeyEl) (i : Nat) (b : Bool) :
    ((setActiveEl els (some i) b)[i]?).map KeyEl.active = (els[i]?).map fun _ => b := by
  unfold setActiveEl
  dsimp only
  cases h : els[i]? with
  | none => simp [h]
  | some k =>
    have hi := (List.getElem?_eq_some.mp h).1
    simp [List.getElem?_set, hi]

theorem keydown_first_effect (s : State) (hm : MapInv s) (hb : s.isPlayingSequence = false)
    (e : KeyboardEvent) (i : Nat) (hmap : getSoundByKey s (getLetterFromEvent e) = some i)
    (hheld : getLetterFromEvent e ∉ s.keyPressed) :
    handleKeyDown s e =
      playOneShot
        (setActive { s with keyPressed := s.keyPressed ++ [getLetterFromEvent e] } (some i) true)
        i ∧
    ((setActiveEl s.keyEls (some i) true)[i]?).map KeyEl.active = some true := by
  have hk := getSoundByKey_some hmap
  have hl : getLetterFromEvent e ≠ "" :=
    isLetter_ne_empty (hm.letters _ (List.mem_iff_getElem?.mpr ⟨i, hk⟩))
  constructor
  · rw [handleKeyDown_fresh s e i hb hl hheld hmap, getKeyElement_eq_getSoundByKey hm, hmap]
  · rw [setActiveEl_getElem?]
    have hi : i < (s.keyEls.map KeyEl.key).length := by
      rw [hm.elKeys]
      exact (List.getElem?_eq_some.mp hk).1
    rw [List.length_map] at hi
    rw [List.getElem?_eq_getElem hi]
    rfl

/-- C6: in every reachable state that is not busy, for every key event (other
than `Enter`) whose letter is mapped to a pad and is not held, two
consecutive key-downs start the sound of that pad exactly once: the first
adds the letter to the held set, activates the pad and starts its sound; the
second leaves the state as it is. -/
theorem key_repeat_suppressed (s : State) (h : Reachable s) (hb : s.isPlayingSequence = false)
    (target : KeyTarget) (e : KeyboardEvent) (he : e.key ≠ some "Enter") (i : Nat)
    (hmap : getSoundByKey s (getLetterFromEvent e) = some i)
    (hheld : getLetterFromEvent e ∉ s.keyPressed) :
    (dispatch s (Event.keydown target e)).keyPressed =
      s.keyPressed ++ [getLetterFromEvent e] ∧
    (dispatch s (Event.keydown target e)).played = s.played ++ [i] ∧
    ((dispatch s (Event.keydown target e)).keyEls[i]?).map KeyEl.active = some true ∧
    dispatch (dispatch s (Event.keydown target e)) (Event.keydown target e) =
      dispatch s (Event.keydown target e) := by
  have hm := (inv_of_reachable h).map
  cases target with
  | other =>
    obtain ⟨h1, h2⟩ := keydown_first_effect s hm hb e i hmap hheld
    simp only [dispatch]
    rw [h1]
    refine ⟨rfl, rfl, h2, ?_⟩
    rw [handleKeyDown_held]
    show getLetterFromEvent e ∈ s.keyPressed ++ [getLetterFromEvent e]
    simp
  | editorInput =>
    by_cases hesc : e.key = some "Escape"
    · obtain ⟨h1, h2⟩ := keydown_first_effect (closeEditor s) (mapInv_closeEditor hm) hb e i
        hmap hheld
      simp only [dispatch, editorKeyDown, if_neg he, if_pos hesc, if_true]
      rw [h1]
      refine ⟨rfl, rfl, h2, ?_⟩
      rw [handleKeyDown_held]
      · rfl
      · show getLetterFromEvent e ∈ s.keyPressed ++ [getLetterFromEvent e]
        simp
    · obtain ⟨h1, h2⟩ := keydown_first_effect { s with editorError := false }
        ((mapInv_of_eq hm) rfl rfl rfl rfl rfl) hb e i hmap hheld
      simp only [dispatch, editorKeyDown, if_neg he, if_neg hesc, if_true]
      rw [h1]
      refine ⟨rfl, rfl, h2, ?_⟩
      rw [handleKeyDown_held]
      · rfl
      · show getLetterFromEvent e ∈ s.keyPressed ++ [getLetterFromEvent e]
        simp

/-- Witness of C6: the letter key `A` in the initial state. -/
theorem key_repeat_suppressed_witness :
    Reachable init ∧ init.isPlayingSequence = false ∧
    getSoundByKey init (getLetterFromEvent keyA) = some 0 ∧
    (run init [Event.keydown KeyTarget.other keyA, Event.keydown KeyTarget.other keyA]).played
      = [0] ∧
    ((dispatch init (Event.keydown KeyTarget.other keyA)).keyPressed =
        init.keyPressed ++ [getLetterFromEvent keyA] ∧
      (dispatch init (Event.keydown KeyTarget.other keyA)).played = init.played ++ [0] ∧
      ((dispatch init (Event.keydown KeyTarget.other keyA)).keyEls[0]?).map KeyEl.active =
        some true ∧
      dispatch (dispatch init (Event.keydown KeyTarget.other keyA))
          (Event.keydown KeyTarget.other keyA) =
        dispatch init (Event.keydown KeyTarget.other keyA)) :=
  ⟨Reachable.init, by decide, by decide, by decide,
    key_repeat_suppressed init Reachable.init (by decide) KeyTarget.other keyA (by decide) 0
      (by decide) (by decide)⟩

/-! ## Remapping while a key is held -/

theorem tryApplyNewKey_success (s : State) (P : Nat) (hopen : s.editTarget = some P)
    (hlet : IsLetter (normalizeKey (some s.editorValue)))
    (hfree : isDuplicateKey s (normalizeKey (some s.editorValue)) P = false) :
    tryApplyNewKey s =
      closeEditor (refreshSequenceRules (refreshMetaMapping
        { updateKeyVisual (setSoundKey s P (normalizeKey (some s.editorValue))) P
            (normalizeKey (some s.editorValue)) with keyPressed := [] })) := by
  have hnd : ¬ (normalizeKey (some s.editorValue) = "" ∨
      isDuplicateKey s (normalizeKey (some s.editorValue)) P = true) := by
    rintro (h0 | h1)
    · exact isLetter_ne_empty hlet h0
    · rw [hfree] at h1
      cases h1
  unfold tryApplyNewKey
  split
  · rename_i h0
    rw [hopen] at h0
    cases h0
  · rename_i target h0
    rw [hopen] at h0
    cases h0
    dsimp only
    rw [if_neg hnd]

theorem getSoundByKey_eq_none {s : State} {letter : String}
    (h : letter ∉ s.sounds.map Sound.key) : getSoundByKey s letter = none := by
  unfold getSoundByKey
  rw [List.findIdx?_eq_none_iff]
  intro x hx
  simp only [beq_eq_false_iff_ne]
  intro hk
  exact h (List.mem_map.mpr ⟨x, hx, hk⟩)

/-- C7: after every successful `tryApplyNewKey` the held-keys set is empty, so
the next key-down of any letter is handled as a fresh event: when the page is
not busy it starts the pad now mapped to the letter, and it does nothing when
no pad is mapped to it.  In a reachable state, when the pad is remapped from
its letter to another one, the old letter is mapped to no pad and the new
letter to the remapped pad. -/
theorem remap_clears_held (s : State) (P : Nat) (hopen : s.editTarget = some P)
    (hlet : IsLetter (normalizeKey (some s.editorValue)))
    (hfree : isDuplicateKey s (normalizeKey (some s.editorValue)) P = false) :
    (tryApplyNewKey s).keyPressed = [] ∧
    (∀ (e : KeyboardEvent) (i : Nat), (tryApplyNewKey s).isPlayingSequence = false →
      getLetterFromEvent e ≠ "" →
      getSoundByKey (tryApplyNewKey s) (getLetterFromEvent e) = some i →
      (handleKeyDown (tryApplyNewKey s) e).played = (tryApplyNewKey s).played ++ [i] ∧
      (handleKeyDown (tryApplyNewKey s) e).keyPressed = [getLetterFromEvent e]) ∧
    (∀ e : KeyboardEvent, getSoundByKey (tryApplyNewKey s) (getLetterFromEvent e) = none →
      handleKeyDown (tryApplyNewKey s) e = tryApplyNewKey s) ∧
    (Reachable s → ∀ x : Sound, s.sounds[P]? = some x →
      x.key ≠ normalizeKey (some s.editorValue) →
      getSoundByKey (tryApplyNewKey s) x.key = none ∧
      getSoundByKey (tryApplyNewKey s) (normalizeKey (some s.editorValue)) = some P) := by
  have hs := tryApplyNewKey_success s P hopen hlet hfree
  have hkp : (tryApplyNewKey s).keyPressed = [] := by rw [hs]; rfl
  refine ⟨hkp, ?_, ?_, ?_⟩
  · intro e i hb hl hmap
    rw [handleKeyDown_fresh _ e i hb hl (by rw [hkp]; simp) hmap]
    refine ⟨rfl, ?_⟩
    show (tryApplyNewKey s).keyPressed ++ [getLetterFromEvent e] = _
    rw [hkp]
    rfl
  · intro e hmap
    exact handleKeyDown_unmapped _ e hmap
  · intro hr x hx hne
    have hm := (inv_of_reachable hr).map
    have hm1 := mapInv_tryApplyNewKey hm
    have hkeys : (tryApplyNewKey s).sounds.map Sound.key =
        (s.sounds.map Sound.key).set P (normalizeKey (some s.editorValue)) := by
      rw [hs]
      show (setKey s.sounds P _).map Sound.key = _
      rw [setKey_map_key]
    have hP : (s.sounds.map Sound.key)[P]? = some x.key := by simp [hx]
    have hPlt : P < (s.sounds.map Sound.key).length := (List.getElem?_eq_some.mp hP).1
    constructor
    · apply getSoundByKey_eq_none
      rw [hkeys]
      intro hmem
      obtain ⟨j, hj⟩ := List.mem_iff_getElem?.mp hmem
      rw [List.getElem?_set] at hj
      by_cases hPj : P = j
      · rw [if_pos hPj, if_pos hPlt] at hj
        exact hne (Option.some.inj hj).symm
      · rw [if_neg hPj] at hj
        exact hPj (nodup_getElem?_inj hm.nodup hP hj)
    · apply getSoundByKey_of_getElem? hm1.nodup
      rw [hkeys, List.getElem?_set, if_pos rfl, if_pos hPlt]

/-- Witness of C7: `A` is held and the first pad is remapped from `A` to `Z`:
the held set is emptied, a further key-down of `A` does nothing, and a
key-down of `Z` starts the first pad. -/
theorem remap_clears_held_witness :
    heldAEditingFirstPad.keyPressed = ["A"] ∧
    heldAEditingFirstPad.editTarget = some 0 ∧
    (tryApplyNewKey heldAEditingFirstPad).sounds.map Sound.key =
      ["Z", "S", "D", "F", "G", "H", "J"] ∧
    handleKeyDown (tryApplyNewKey heldAEditingFirstPad) keyA =
      tryApplyNewKey heldAEditingFirstPad ∧
    (handleKeyDown (tryApplyNewKey heldAEditingFirstPad) keyZ).played = [0, 0] ∧
    (tryApplyNewKey heldAEditingFirstPad).keyPressed = [] :=
  ⟨by decide, by decide, by decide, by decide, by decide,
    (remap_clears_held heldAEditingFirstPad 0 (by decide) (by decide) (by decide)).1⟩

/-! ## Sequence run: cleanup and progress -/

theorem runFields_handleKeyDown (s : State) (e : KeyboardEvent) :
    runFields (handleKeyDown s e) = runFields s := by
  unfold handleKeyDown
  split
  · rfl
  · dsimp only
    split
    · rfl
    · split <;> rfl

theorem runFields_handleKeyUp (s : State) (e : KeyboardEvent) :
    runFields (handleKeyUp s e) = runFields s := by
  unfold handleKeyUp
  dsimp only
  split <;> rfl

theorem runFields_onDown (s : State) (i : Nat) : runFields (onDown s i) = runFields s := by
  unfold onDown
  split
  · rfl
  · split <;> rfl

theorem runFields_openEditor (s : State) (i : Nat) :
    runFields (openEditor s i) = runFields s := by
  unfold openEditor
  split
  · rfl
  · split <;> rfl

theorem runFields_tryApplyNewKey (s : State) : runFields (tryApplyNewKey s) = runFields s := by
  unfold tryApplyNewKey
  split
  · rfl
  · dsimp only
    split <;> rfl

theorem runFields_documentMouseDown (s : State) (t : MouseTarget) :
    runFields (documentMouseDown s t) = runFields s := by
  unfold documentMouseDown
  split
  · rfl
  · dsimp only
    split <;> rfl

theorem running_of_runFields {s t : State} (h : Running s) (hf : runFields t = runFields s) :
    Running t := by
  simp only [runFields, Prod.mk.injEq] at hf
  obtain ⟨h1, h2, h3, h4, h5, h6⟩ := hf
  unfold Running at h ⊢
  rw [h1, h2, h3, h4, h5, h6]
  exact h

theorem length_ne_zero_of_ne_empty {v : String} (h : v ≠ "") : (v.length == 0) = false := by
  simp only [beq_eq_false_iff_ne]
  intro h0
  apply h
  apply String.ext
  exact List.length_eq_zero.mp h0

theorem settled_finallyBlock (s : State) (h : s.seqValue ≠ "") : Settled (finallyBlock s) := by
  refine ⟨rfl, rfl, rfl, ?_, rfl⟩
  show (false || s.seqValue.length == 0) = false
  rw [length_ne_zero_of_ne_empty h]
  rfl

theorem playSequenceLoop_progress (s : State) (letters : List Char)
    (h1 : s.isPlayingSequence = true) (h2 : s.seqDisabled = true) (h3 : s.playDisabled = true)
    (h4 : s.appBusy = true) (h5 : s.seqValue ≠ "") :
    (Running (playSequenceLoop s letters) ∨ Settled (playSequenceLoop s letters)) ∧
    pending (playSequenceLoop s letters).runner ≤ 2 * letters.length := by
  induction letters with
  | nil => exact ⟨Or.inr (settled_finallyBlock s h5), Nat.le_refl _⟩
  | cons letter rest ih =>
    unfold playSequenceLoop
    split
    · refine ⟨ih.1, ?_⟩
      have := ih.2
      simp only [List.length_cons]
      omega
    · refine ⟨Or.inl ⟨?_, h1, h2, h3, h4, h5⟩, ?_⟩
      · intro h0
        cases h0
      · show 2 * rest.length + 2 ≤ 2 * (letter :: rest).length
        simp only [List.length_cons]
        omega

theorem resume_progress (s : State) (h : Running s) :
    (Running (resume s) ∨ Settled (resume s)) ∧ pending (resume s).runner < pending s.runner := by
  obtain ⟨h0, h1, h2, h3, h4, h5⟩ := h
  cases hr : s.runner with
  | idle => exact absurd hr h0
  | awaitPlay keyEl sound rest =>
    have he : resume s = { s with runner := Runner.awaitSleep keyEl sound rest } := by
      simp only [resume, playStepPlaySettled, hr]
    rw [he]
    refine ⟨Or.inl ⟨?_, h1, h2, h3, h4, h5⟩, ?_⟩
    · intro h6
      cases h6
    · show 2 * rest.length + 1 < 2 * rest.length + 2
      omega
  | awaitSleep keyEl sound rest =>
    have he : resume s = playSequenceLoop (setActive s keyEl false) rest := by
      simp only [resume, playStepSleepElapsed, hr]
    rw [he]
    have hp := playSequenceLoop_progress (setActive s keyEl false) rest h1 h2 h3 h4 h5
    refine ⟨hp.1, ?_⟩
    have := hp.2
    show _ < 2 * rest.length + 1
    omega

theorem resume_settles (m : Nat) (s : State) (h : Running s) (hm : pending s.runner ≤ m) :
    ∃ n, n ≤ m ∧ Settled (resume^[n] s) := by
  induction m generalizing s with
  | zero =>
    have := (resume_progress s h).2
    omega
  | succ m ih =>
    obtain ⟨hrs, hlt⟩ := resume_progress s h
    rcases hrs with hrun | hset
    · obtain ⟨n, hn, hsn⟩ := ih (resume s) hrun (by omega)
      exact ⟨n + 1, by omega, by rw [Function.iterate_succ_apply]; exact hsn⟩
    · exact ⟨1, by omega, hset⟩

theorem runFields_dispatch (s : State) (h : Running s) (e : Event)
    (h1 : e ≠ Event.playSettled) (h2 : e ≠ Event.sleepElapsed) (h3 : e ≠ Event.stepThrows) :
    runFields (dispatch s e) = runFields s := by
  obtain ⟨_, _, hsd, hpd, _, _⟩ := h
  cases e with
  | keydown target e =>
    cases target with
    | editorInput =>
      simp only [dispatch, editorKeyDown]
      split_ifs
      · rw [runFields_handleKeyDown, runFields_tryApplyNewKey]
      · exact runFields_tryApplyNewKey s
      · rw [runFields_handleKeyDown]
        rfl
      · rfl
      · rw [runFields_handleKeyDown]
        rfl
      · rfl
    | other => exact runFields_handleKeyDown s e
  | keyup e => exact runFields_handleKeyUp s e
  | mousedown target =>
    cases target with
    | padBody i =>
      simp only [dispatch]
      split
      · rw [runFields_documentMouseDown, runFields_onDown]
      · rfl
    | padEdit i =>
      simp only [dispatch]
      split
      · rw [runFields_documentMouseDown, runFields_onDown]
      · rfl
    | editor => exact runFields_documentMouseDown s _
    | elsewhere => exact runFields_documentMouseDown s _
  | mouseup i =>
    simp only [dispatch]
    split <;> rfl
  | mouseleave i =>
    simp only [dispatch]
    split <;> rfl
  | clickEdit i => exact runFields_openEditor s i
  | clickPlay =>
    simp only [dispatch]
    rw [if_pos hpd]
  | editorInput raw => rfl
  | seqInput raw =>
    simp only [dispatch]
    rw [if_pos hsd]
  | playSettled => exact absurd rfl h1
  | sleepElapsed => exact absurd rfl h2
  | stepThrows => exact absurd rfl h3

theorem settled_playStepThrows (s : State) (h : Running s) : Settled (playStepThrows s) := by
  have h5 := h.2.2.2.2.2
  have h0 := h.1
  unfold playStepThrows
  split
  · rename_i hr
    exact absurd hr h0
  · exact settled_finallyBlock s h5

theorem dispatch_running (s : State) (h : Running s) (e : Event) :
    (Running (dispatch s e) ∨ Settled (dispatch s e)) ∧
    pending (dispatch s e).runner ≤ pending s.runner := by
  by_cases h1 : e = Event.playSettled
  · subst h1
    cases hr : s.runner with
    | awaitPlay keyEl sound rest =>
      have he : dispatch s Event.playSettled = resume s := by
        simp only [dispatch, resume, hr]
      rw [he]
      have hp := resume_progress s h
      rw [hr] at hp
      exact ⟨hp.1, Nat.le_of_lt hp.2⟩
    | idle =>
      have he : dispatch s Event.playSettled = s := by
        simp only [dispatch, playStepPlaySettled, hr]
      rw [he, hr]
      exact ⟨Or.inl h, Nat.le_refl _⟩
    | awaitSleep keyEl sound rest =>
      have he : dispatch s Event.playSettled = s := by
        simp only [dispatch, playStepPlaySettled, hr]
      rw [he, hr]
      exact ⟨Or.inl h, Nat.le_refl _⟩
  · by_cases h2 : e = Event.sleepElapsed
    · subst h2
      cases hr : s.runner with
      | awaitSleep keyEl sound rest =>
        have he : dispatch s Event.sleepElapsed = resume s := by
          simp only [dispatch, resume, hr]
        rw [he]
        have hp := resume_progress s h
        rw [hr] at hp
        exact ⟨hp.1, Nat.le_of_lt hp.2⟩
      | idle =>
        have he : dispatch s Event.sleepElapsed = s := by
          simp only [dispatch, playStepSleepElapsed, hr]
        rw [he, hr]
        exact ⟨Or.inl h, Nat.le_refl _⟩
      | awaitPlay keyEl sound rest =>
        have he : dispatch s Event.sleepElapsed = s := by
          simp only [dispatch, playStepSleepElapsed, hr]
        rw [he, hr]
        exact ⟨Or.inl h, Nat.le_refl _⟩
    · by_cases h3 : e = Event.stepThrows
      · subst h3
        have hs := settled_playStepThrows s h
        refine ⟨Or.inr hs, ?_⟩
        show pending (playStepThrows s).runner ≤ _
        rw [hs.1]
        exact Nat.zero_le _
      · have hf := runFields_dispatch s h e h1 h2 h3
        refine ⟨Or.inl (running_of_runFields h hf), ?_⟩
        simp only [runFields, Prod.mk.injEq] at hf
        rw [hf.2.1]

/-- C8: `playSequenceFromInput` changes nothing when the sequence is empty or
a run is in progress.  Started with a non-empty sequence while not busy, it
leaves the page running or settled; a running page stays running under every
event until it settles; it settles when the suspended step throws, and it
settles after at most `pending` resumptions when every step completes.
Settled means: busy flag clear, sequence field and play button enabled. -/
theorem cleanup_guarantee (s : State) :
    ((s.seqValue = "" ∨ s.isPlayingSequence = true) → playSequenceFromInput s = s) ∧
    (s.seqValue ≠ "" → s.isPlayingSequence = false →
      Running (playSequenceFromInput s) ∨ Settled (playSequenceFromInput s)) ∧
    (Running s →
      (∀ e : Event, (Running (dispatch s e) ∨ Settled (dispatch s e)) ∧
        pending (dispatch s e).runner ≤ pending s.runner) ∧
      Settled (dispatch s Event.stepThrows) ∧
      pending (resume s).runner < pending s.runner ∧
      ∃ n, n ≤ pending s.runner ∧ Settled (resume^[n] s)) := by
  refine ⟨?_, ?_, ?_⟩
  · intro h
    unfold playSequenceFromInput
    dsimp only
    rw [if_pos h]
  · intro h1 h2
    have hc : ¬ (s.seqValue = "" ∨ s.isPlayingSequence = true) := by
      rintro (h | h)
      · exact h1 h
      · rw [h2] at h
        cases h
    unfold playSequenceFromInput
    dsimp only
    rw [if_neg hc]
    exact (playSequenceLoop_progress (setUiBusy { s with isPlayingSequence := true } true) _
      rfl rfl rfl rfl h1).1
  · intro h
    exact ⟨dispatch_running s h, settled_playStepThrows s h, (resume_progress s h).2,
      resume_settles _ s h (Nat.le_refl _)⟩

/-- Witness of C8: the run of the two-letter sequence `AS`: it settles after
four resumptions, and when its first step throws. -/
theorem cleanup_guarantee_witness :
    Running runningTwoSteps ∧
    Settled (resume^[4] runningTwoSteps) ∧
    (resume^[4] runningTwoSteps).played = [0, 1] ∧
    Settled (dispatch runningTwoSteps Event.stepThrows) ∧
    playSequenceFromInput runningTwoSteps = runningTwoSteps := by
  have h : Running runningTwoSteps := by decide
  exact ⟨h, by decide, by decide, ((cleanup_guarantee runningTwoSteps).2.2 h).2.1,
    (cleanup_guarantee runningTwoSteps).1 (Or.inr (by decide))⟩

/-! ## Defects -/

/-- C9 fails on the code: the first pad is activated by a key-down of `A` and
remapped to `Z` before the key is released; the key-up of `A` then finds no
element for `A` and leaves the pad active.  The same happens when the editor
was opened with the mouse before the key was pressed. -/
theorem key_release_leaves_pad_active :
    Reachable remappedWhileHeld ∧
    ((dispatch init (Event.keydown KeyTarget.other keyA)).keyEls[0]?).map KeyEl.active =
      some true ∧
    remappedWhileHeld.sounds.map Sound.key = ["Z", "S", "D", "F", "G", "H", "J"] ∧
    remappedWhileHeld.played = [0] ∧
    getKeyElement remappedWhileHeld "A" = none ∧
    (dispatch remappedWhileHeld (Event.keyup keyA)).keyPressed = [] ∧
    ((dispatch remappedWhileHeld (Event.keyup keyA)).keyEls[0]?).map KeyEl.active = some true ∧
    Reachable remappedWhileHeldInEditor ∧
    remappedWhileHeldInEditor.sounds.map Sound.key = ["Z", "S", "D", "F", "G", "H", "J"] ∧
    remappedWhileHeldInEditor.played = [0, 0] ∧
    (dispatch remappedWhileHeldInEditor (Event.keyup keyA)).keyPressed = [] ∧
    ((dispatch remappedWhileHeldInEditor (Event.keyup keyA)).keyEls[0]?).map KeyEl.active =
      some true :=
  ⟨reachable_run Reachable.init _, by decide, by decide, by decide, by decide, by decide,
    by decide, reachable_run Reachable.init _, by decide, by decide, by decide, by decide⟩

/-- C10 fails on the code: after the first pad (`C4`) is remapped to `Z` the
status text is the full mapping text at once; the text of
`announceMappingChange` is never shown. -/
theorem remap_shows_mapping_text :
    editingFirstPad.editTarget = some 0 ∧
    (tryApplyNewKey editingFirstPad).sounds.map Sound.key =
      ["Z", "S", "D", "F", "G", "H", "J"] ∧
    (tryApplyNewKey editingFirstPad).metaText = "Keys: Z S D F G H J → C4 D4 F4 A4 B4 C5 C6" ∧
    (announceMappingChange editingFirstPad "C4" "Z").metaText = "Key for C4 changed to Z." ∧
    (tryApplyNewKey editingFirstPad).metaText ≠ "Key for C4 changed to Z." ∧
    dispatch editingFirstPad (Event.keydown KeyTarget.editorInput enterKey) =
      tryApplyNewKey editingFirstPad :=
  ⟨by decide, by decide, by decide, by decide, by decide, by decide⟩

end VirtualMusicKit
